import Mathlib

/-!
# otip_rproxy: usage counter, UDP pseudo-flow engine, TCP splice loop, option parsing

Shallow embedding of the parts of `otip_rproxy.c`, `proxyudp.c` and `proxytcp.c`
that the specification talks about.  System calls are not executed: their results
are inputs of the step functions and the calls a function issues are recorded in a
trace, oldest first.
-/

namespace OtipRproxy

/-! ## Machine integers -/

/-- Conversion of an integer to the 32-bit `int` of the platform (two's complement). -/
def wrap32 (x : Int) : Int := (x + 2147483648) % 4294967296 - 2147483648

/-- The largest value of an `int`. -/
def INT_MAX : Int := 2147483647

/-! ## Usage counter (`otip_rproxy.c`, `struct usagecount`) -/

/-- The world touched by `extstack_usageup` / `extstack_usagedown` for one
`struct usagecount`: the `count` field, how many times `ioth_delstack` was called on
the stack bound to it, and how many times the counter was passed to `free`.
The count is an `_Atomic int`: its increment and decrement are two's complement
arithmetic on 32 bits, with wrap-around at the ends of the range. -/
structure UsageState where
  count : Int
  delstack : Nat
  freed : Nat
deriving DecidableEq, Repr

/-- Fresh counter as returned by `calloc(1, sizeof(struct usagecount))`. -/
def UsageState.calloc : UsageState := { count := 0, delstack := 0, freed := 0 }

/-- Embedding of `extstack_usageup`: `usage->count++` on the 32-bit count. -/
def extstack_usageup (s : UsageState) : UsageState :=
  { s with count := wrap32 (s.count + 1) }

/-- Embedding of `extstack_usagedown`: `newcount = --usage->count` on the 32-bit
count, and when `newcount == 0` the stack is deleted and the counter freed. -/
def extstack_usagedown (s : UsageState) : UsageState :=
  let newcount := wrap32 (s.count - 1)
  if newcount = 0 then
    { count := newcount, delstack := s.delstack + 1, freed := s.freed + 1 }
  else
    { s with count := newcount }

/-- One operation on a usage counter.  The increment and the decrement are atomic
read-modify-write operations on `_Atomic int`, so the operations of all threads on one
counter form one sequence. -/
inductive UsageOp where
  | up
  | down
deriving DecidableEq, Repr

/-- Apply one operation. -/
def UsageOp.apply (s : UsageState) : UsageOp → UsageState
  | .up => extstack_usageup s
  | .down => extstack_usagedown s

/-- Run a sequence of operations on a freshly allocated counter. -/
def usageRun (ops : List UsageOp) : UsageState :=
  ops.foldl UsageOp.apply UsageState.calloc

/-! ## UDP relay (`proxyudp.c`) -/

/-- The `struct sockaddr_in6` of a peer (the family is always `AF_INET6`).
Addresses are byte lists (16 bytes for a well-formed address). -/
structure sockaddr_in6 where
  sin6_port : Nat
  sin6_flowinfo : Nat
  sin6_addr : List Nat
  sin6_scope_id : Nat
deriving DecidableEq, Repr

/-- The `struct proxy_item` of `otip_rproxy.h`. -/
structure proxy_item where
  extport : Nat
  intsockaddr : sockaddr_in6
deriving DecidableEq, Repr

/-- The `struct udpconn` of `proxyudp.c`.  `ptr` is the address `malloc` returned for
the record (its identity); the `next` pointer is the order of the list holding it. -/
structure udpconn where
  ptr : Nat
  fd : Int
  i : Nat
  expire : Int
  sender : sockaddr_in6
  ctllen : Nat
  ctlbuf : List Nat
deriving DecidableEq, Repr

/-- The value of `EPOLL_CTL_ADD` in `sys/epoll.h`. -/
def EPOLL_CTL_ADD : Int := 1
/-- The value of `EPOLL_CTL_DEL` in `sys/epoll.h`. -/
def EPOLL_CTL_DEL : Int := 2
/-- Batch size of `epoll_wait` in `udplisten`. -/
def NEVENTS : Nat := 5
/-- Size of the datagram buffer of `udplisten`. -/
def UDPBUFSIZE : Nat := 64 * 1024

/-- Calls issued by `udplisten`, with their arguments in the order of the source.
`epoll_ctl op fd` carries the second and third argument of the call as written;
`store_expire ptr v` is the assignment `conn->expire = v` through the pointer `ptr`. -/
inductive Action where
  | ioth_bind (fd : Int) (port : Nat)
  | ioth_setsockopt (fd : Int)
  | epoll_ctl (op : Int) (fd : Int)
  | ioth_connect (fd : Int) (addr : sockaddr_in6)
  | ioth_close (fd : Int)
  | free (ptr : Nat)
  | send (fd : Int) (data : List Nat) (len : Int)
  | sendmsg (fd : Int) (msg_name : sockaddr_in6) (data : List Nat) (iov_len : Int)
      (msg_control : List Nat) (msg_controllen : Nat)
  | store_expire (ptr : Nat) (v : Int)
deriving DecidableEq, Repr

/-- Results of the calls made while one event on an external socket is handled:
`recvmsg` (return value `n`, the sender, the control length and the local `ctlbuf`
and `buf` after the call) and, for the case that a flow is created, the results of
`malloc` (`none` is `NULL`), `ioth_msocket` and `epoll_ctl(..EPOLL_CTL_ADD..)`. -/
structure ExtRecv where
  n : Int
  sender : sockaddr_in6
  msg_controllen : Nat
  ctlbuf : List Nat
  buf : List Nat
  malloc : Option Nat
  msocket : Int
  epoll_retval : Int
deriving DecidableEq, Repr

/-- Result of `recv` on a flow's internal socket: return value and buffer. -/
structure IntRecv where
  n : Int
  buf : List Nat
deriving DecidableEq, Repr

/-- One entry of the `events` array filled by `epoll_wait`: `data.ptr` points into
the `fd` array (`ext i`, with `i = extfd - fd`) or is the address of a flow record. -/
inductive Event where
  | ext (i : Nat) (r : ExtRecv)
  | int (conn : Nat) (r : IntRecv)
deriving DecidableEq, Repr

/-- What `udplisten` reads from its argument and from the configuration globals. -/
structure UdpConf where
  item : List proxy_item
  conf_otip_lifetime : Int
  conf_udp_timeout : Int
deriving DecidableEq, Repr

/-- The `args->size` of `udplisten`. -/
def UdpConf.size (cfg : UdpConf) : Nat := cfg.item.length

/-- Local variables of `udplisten` and the calls issued so far. -/
structure UdpState where
  usagecount : Int
  now : Int
  last : Int
  expire : Int
  fd : List Int
  fdconn : List (List udpconn)
  trace : List Action
deriving DecidableEq, Repr

/-- The test `memcmp(a, b, n) == 0`: the first `n` bytes are equal. -/
def memcmp_eq (a b : List Nat) (n : Nat) : Bool :=
  a.take n == b.take n

/-- The condition of the `if` inside the search loop of `udplisten`. -/
def udpconn.matches (conn : udpconn) (sender : sockaddr_in6) (msg_controllen : Nat)
    (ctlbuf : List Nat) : Bool :=
  conn.sender.sin6_port == sender.sin6_port &&
  memcmp_eq conn.sender.sin6_addr sender.sin6_addr 16 &&
  msg_controllen == conn.ctllen &&
  memcmp_eq conn.ctlbuf ctlbuf conn.ctllen

/-- The search loop `for (conn = fdconn[i]; conn != NULL; conn = conn->next)`:
the record at which the loop breaks, `none` for `NULL`. -/
def findconn (sender : sockaddr_in6) (msg_controllen : Nat) (ctlbuf : List Nat) :
    List udpconn → Option udpconn
  | [] => none
  | conn :: next =>
    if conn.matches sender msg_controllen ctlbuf then some conn
    else findconn sender msg_controllen ctlbuf next

/-- The assignment `conn->expire = v` for the record the search loop stopped at. -/
def setExpireFound (sender : sockaddr_in6) (msg_controllen : Nat) (ctlbuf : List Nat)
    (v : Int) : List udpconn → List udpconn
  | [] => []
  | conn :: next =>
    if conn.matches sender msg_controllen ctlbuf then { conn with expire := v } :: next
    else conn :: setExpireFound sender msg_controllen ctlbuf v next

/-- The bytes `send(conn->fd, buf, n, 0)` hands over: the first `n` bytes of `buf`. -/
def payload (buf : List Nat) (n : Int) : List Nat := buf.take n.toNat

/-- Handling of an event on the external socket of port index `i`
(`//packet from ext to int`).  When registering a new record fails it is closed and
freed, but the local `conn` is still non-null, so the `send` and the store to
`conn->expire` that follow are issued on the freed record; the descriptor read from
the freed record is taken to be the one it held before `free`. -/
def extEvent (cfg : UdpConf) (s : UdpState) (i : Nat) (r : ExtRecv) : UdpState :=
  if 0 < r.n then
    match findconn r.sender r.msg_controllen r.ctlbuf (s.fdconn.getD i []) with
    | some conn =>
      { s with
        fdconn := s.fdconn.set i
          (setExpireFound r.sender r.msg_controllen r.ctlbuf (s.now + cfg.conf_udp_timeout)
            (s.fdconn.getD i []))
        trace := s.trace ++ [Action.send conn.fd (payload r.buf r.n) r.n,
          Action.store_expire conn.ptr (s.now + cfg.conf_udp_timeout)] }
    | none =>
      if s.now ≤ s.expire then
        match r.malloc with
        | none => s
        | some p =>
          let setup := [Action.ioth_connect r.msocket
              ((cfg.item.getD i ⟨0, ⟨0, 0, [], 0⟩⟩).intsockaddr),
            Action.epoll_ctl EPOLL_CTL_ADD r.msocket]
          if r.epoll_retval < 0 then
            { s with
              trace := s.trace ++ setup ++ [Action.ioth_close r.msocket, Action.free p,
                Action.send r.msocket (payload r.buf r.n) r.n,
                Action.store_expire p (s.now + cfg.conf_udp_timeout)] }
          else
            { s with
              fdconn := s.fdconn.set i
                ({ ptr := p, fd := r.msocket, i := i,
                   expire := s.now + cfg.conf_udp_timeout,
                   sender := r.sender, ctllen := r.msg_controllen,
                   ctlbuf := r.ctlbuf.take r.msg_controllen } :: s.fdconn.getD i [])
              trace := s.trace ++ setup ++ [Action.send r.msocket (payload r.buf r.n) r.n,
                Action.store_expire p (s.now + cfg.conf_udp_timeout)] }
      else s
  else s

/-- The record at address `p`, looked up in the table of linked records. -/
def lookupPtr (fdconn : List (List udpconn)) (p : Nat) : Option udpconn :=
  fdconn.flatten.find? (fun c => c.ptr == p)

/-- The assignment `conn->expire = v` through the pointer `p`. -/
def setExpirePtr (p : Nat) (v : Int) (fdconn : List (List udpconn)) : List (List udpconn) :=
  fdconn.map (List.map (fun c => if c.ptr = p then { c with expire := v } else c))

/-- Handling of an event on a flow's internal socket (`//packet fron int to ext`);
`p` is `event->data.ptr`.  epoll reports only registered records, which are linked;
for an address that is not in the table the step is the identity. -/
def intEvent (cfg : UdpConf) (s : UdpState) (p : Nat) (r : IntRecv) : UdpState :=
  match lookupPtr s.fdconn p with
  | none => s
  | some conn =>
    { s with
      fdconn := setExpirePtr p (s.now + cfg.conf_udp_timeout) s.fdconn
      trace := s.trace ++ [Action.sendmsg (s.fd.getD conn.i (-1)) conn.sender
          (payload r.buf r.n) r.n conn.ctlbuf conn.ctllen,
        Action.store_expire p (s.now + cfg.conf_udp_timeout)] }

/-- Body of the loop `for (int k = 0; k < nevents; k++)`. -/
def handleEvent (cfg : UdpConf) (s : UdpState) : Event → UdpState
  | .ext i r => extEvent cfg s i r
  | .int p r => intEvent cfg s p r

/-- The inner loop of the sweep over one list: records with `now > conn->expire` are
closed, unlinked and freed; the others stay, in order. -/
def sweepList (now : Int) : List udpconn → List udpconn × List Action
  | [] => ([], [])
  | conn :: next =>
    if now > conn.expire then
      ((sweepList now next).1,
        [Action.ioth_close conn.fd, Action.epoll_ctl conn.fd EPOLL_CTL_DEL,
          Action.free conn.ptr] ++ (sweepList now next).2)
    else
      (conn :: (sweepList now next).1, (sweepList now next).2)

/-- Body of the sweep loop for port index `i`, including the closing of the port's
external socket once the epoch expired and the list is empty. -/
def sweepPort (s : UdpState) (i : Nat) : UdpState :=
  let r := sweepList s.now (s.fdconn.getD i [])
  let s1 : UdpState :=
    { s with fdconn := s.fdconn.set i r.1, trace := s.trace ++ r.2 }
  if s1.now > s1.expire ∧ r.1 = [] then
    { s1 with
      usagecount := s1.usagecount - 1
      trace := s1.trace ++ [Action.epoll_ctl (s1.fd.getD i (-1)) EPOLL_CTL_DEL,
        Action.ioth_close (s1.fd.getD i (-1))] }
  else s1

/-- The block `if (now > last) { ... last = now; }`. -/
def sweep (cfg : UdpConf) (s : UdpState) : UdpState :=
  if s.now > s.last then
    { (List.range cfg.size).foldl sweepPort s with last := s.now }
  else s

/-- Inputs of one iteration of the main loop: the value `time(NULL)` returns after
`epoll_wait` and the events `epoll_wait` stored (`nevents` of them, at most
`NEVENTS`; none when it fails or times out). -/
structure IterInput where
  now : Int
  events : List Event
deriving DecidableEq, Repr

/-- One iteration of `while (usagecount > 0)`. -/
def udpIter (cfg : UdpConf) (s : UdpState) (inp : IterInput) : UdpState :=
  sweep cfg ((inp.events.take NEVENTS).foldl (handleEvent cfg) { s with now := inp.now })

/-- The loop `while (usagecount > 0)` run on a sequence of iteration inputs. -/
def udpLoop (cfg : UdpConf) : UdpState → List IterInput → UdpState
  | s, [] => s
  | s, inp :: rest =>
    if 0 < s.usagecount then udpLoop cfg (udpIter cfg s inp) rest else s

/-- The set-up calls for port index `i` in the first loop of `udplisten`. -/
def initActions (cfg : UdpConf) (msocket : Nat → Int) (i : Nat) : List Action :=
  [Action.ioth_bind (msocket i) ((cfg.item.getD i ⟨0, ⟨0, 0, [], 0⟩⟩).extport),
    Action.ioth_setsockopt (msocket i),
    Action.epoll_ctl EPOLL_CTL_ADD (msocket i)]

/-- State of `udplisten` when the main loop is entered: `now0` is the first
`time(NULL)`, `msocket i` the socket `ioth_msocket` returned for port index `i`. -/
def udplisten_init (cfg : UdpConf) (now0 : Int) (msocket : Nat → Int) : UdpState :=
  { usagecount := cfg.size
    now := now0
    last := now0
    expire := now0 + cfg.conf_otip_lifetime
    fd := (List.range cfg.size).map msocket
    fdconn := List.replicate cfg.size []
    trace := (List.range cfg.size).flatMap (initActions cfg msocket) }

/-- The clock never goes backwards: every iteration reads a time that is not before
the time read before it (`t` is the last time read so far). -/
def clockMonotone : Int → List IterInput → Bool
  | _, [] => true
  | t, inp :: rest => decide (t ≤ inp.now) && clockMonotone inp.now rest

/-! ### Sample values of the UDP relay -/

/-- A peer `[2001:db8::1]:5000`. -/
def exSender : sockaddr_in6 :=
  ⟨5000, 0, [0x20, 0x01, 0x0d, 0xb8, 0, 0, 0, 0, 0, 0, 0, 0, 0, 0, 0, 1], 0⟩

/-- One forwarding rule `6000,::1,22` and the default timeouts. -/
def exCfg : UdpConf :=
  { item := [⟨6000, ⟨22, 0, [0, 0, 0, 0, 0, 0, 0, 0, 0, 0, 0, 0, 0, 0, 0, 1], 0⟩⟩]
    conf_otip_lifetime := 48
    conf_udp_timeout := 8 }

/-- A flow of `exSender` on port index 0 with four ancillary bytes. -/
def exFlow : udpconn :=
  { ptr := 4096, fd := 7, i := 0, expire := 104, sender := exSender, ctllen := 4,
    ctlbuf := [1, 2, 3, 4] }

/-- A state of the relay at time 100 holding `exFlow`. -/
def exState : UdpState :=
  { usagecount := 1, now := 100, last := 100, expire := 148, fd := [3],
    fdconn := [[exFlow]], trace := [] }

/-- The state `exState` at time 200, after the epoch expiry 148. -/
def exStateLate : UdpState := { exState with now := 200 }

/-- A datagram `PING\n` of `exSender` carrying the ancillary bytes of `exFlow`. -/
def exRecv : ExtRecv :=
  { n := 5, sender := exSender, msg_controllen := 4, ctlbuf := [1, 2, 3, 4, 0, 0],
    buf := [80, 73, 78, 71, 10], malloc := some 8192, msocket := 9, epoll_retval := 0 }

/-- An empty datagram of `exSender` carrying the ancillary bytes of `exFlow`. -/
def exRecvEmpty : ExtRecv := { exRecv with n := 0, buf := [] }

/-- A datagram of another peer port. -/
def exRecvOther : ExtRecv := { exRecv with sender := { exSender with sin6_port := 5001 } }

/-- An empty datagram of another peer port. -/
def exRecvOtherEmpty : ExtRecv := { exRecvOther with n := 0, buf := [] }

/-- Sockets returned by `ioth_msocket` for the external ports: 3, 4, ... -/
def exMsocket (i : Nat) : Int := 3 + i

/-- Three iterations: a datagram of `exSender` at time 100, then idle iterations at
times 101 and 109. -/
def exInputs : List IterInput :=
  [⟨100, [Event.ext 0 exRecv]⟩, ⟨101, []⟩, ⟨109, []⟩]

/-! ### The sweep, as the specification words it -/

/-- The calls the specification asks of the sweep for one list at time `now`: for each
record with `now > expire`, in list order, one close of its socket, one `epoll_ctl`
and one `free`. -/
def removedActions (now : Int) (l : List udpconn) : List Action :=
  (l.filter (fun c => decide (now > c.expire))).flatMap
    (fun c => [Action.ioth_close c.fd, Action.epoll_ctl c.fd EPOLL_CTL_DEL, Action.free c.ptr])

/-- The calls that close the external socket of port index `i` in a sweep of the state
`s`: issued when the epoch expired and no record of the port stays. -/
def portCloseActions (s : UdpState) (i : Nat) : List Action :=
  if s.now > s.expire ∧ (s.fdconn.getD i []).filter (fun c => decide (s.now ≤ c.expire)) = [] then
    [Action.epoll_ctl (s.fd.getD i (-1)) EPOLL_CTL_DEL, Action.ioth_close (s.fd.getD i (-1))]
  else []

/-! ### More sample values of the UDP relay -/

/-- Two forwarding rules, `6000,::1,22` and `6001,::1,53`, and the default timeouts. -/
def exCfg2 : UdpConf :=
  { item := [⟨6000, ⟨22, 0, [0, 0, 0, 0, 0, 0, 0, 0, 0, 0, 0, 0, 0, 0, 0, 1], 0⟩⟩,
             ⟨6001, ⟨53, 0, [0, 0, 0, 0, 0, 0, 0, 0, 0, 0, 0, 0, 0, 0, 0, 1], 0⟩⟩]
    conf_otip_lifetime := 48
    conf_udp_timeout := 8 }

/-- A relay started at time 0 (epoch expiry 48): a datagram arrives on port index 1 at
time 47, then two idle iterations at times 49 and 50. -/
def exInputs2 : List IterInput :=
  [⟨47, [Event.ext 1 exRecv]⟩, ⟨49, []⟩, ⟨50, []⟩]

/-- The datagram `exRecvOther` when the registration of the new socket fails. -/
def exRecvFail : ExtRecv := { exRecvOther with epoll_retval := -1 }

/-- A state at time 105 (last sweep at 100) with three flows on port index 0, the
first and the third expired. -/
def exStateSweep : UdpState :=
  { usagecount := 1, now := 105, last := 100, expire := 148, fd := [3],
    fdconn := [[exFlow, { exFlow with ptr := 4200, fd := 8, expire := 105 },
      { exFlow with ptr := 4300, fd := 10, expire := 101 }]], trace := [] }

/-! ## TCP relay (`proxytcp.c`) -/

/-- Size of the buffer of `tcpconn`. -/
def TCPBUFSIZE : Nat := 128 * 1024
/-- The value of `POLLIN` in `poll.h`. -/
def POLLIN : Nat := 1

/-- Calls issued by `tcpconn`.  `ioth_recv fd n data` records the return value `n` of
a receive on `fd` and the first `n` bytes of the buffer after it; `ioth_send fd data
len` the bytes and the length handed to a send on `fd`. -/
inductive TcpAction where
  | ioth_connect (fd : Int)
  | poll (timeout : Int)
  | ioth_recv (fd : Int) (n : Int) (data : List Nat)
  | ioth_send (fd : Int) (data : List Nat) (len : Int)
  | ioth_close (fd : Int)
  | extstack_usagedown
  | free
deriving DecidableEq, Repr

/-- What the environment answers in one iteration of the splice loop: the return value
of `poll`, the `revents` of the two descriptors, and the results of the receives on
the accepted socket (`recv0`) and on the internal socket (`recv1`), each read only if
the corresponding receive is executed. -/
structure TcpIter where
  pout : Int
  revents0 : Nat
  recv0 : IntRecv
  revents1 : Nat
  recv1 : IntRecv
deriving DecidableEq, Repr

/-- One `if (pfd[k].revents & POLLIN) { ... }` block of the splice loop: the calls it
issues and whether it executed `break`. -/
def spliceSide (revents : Nat) (r : IntRecv) (src dst : Int) : List TcpAction × Bool :=
  if Nat.land revents POLLIN ≠ 0 then
    if r.n ≤ 0 then ([TcpAction.ioth_recv src r.n (payload r.buf r.n)], true)
    else ([TcpAction.ioth_recv src r.n (payload r.buf r.n),
      TcpAction.ioth_send dst (payload r.buf r.n) r.n], false)
  else ([], false)

/-- The loop `for (;;)` of `tcpconn` on a sequence of answers of the environment:
the calls issued, and whether the loop was left (`false`: the answers ran out while
the loop was still running). -/
def spliceLoop (conf_tcp_timeout : Int) (afd infd : Int) : List TcpIter → List TcpAction × Bool
  | [] => ([], false)
  | it :: rest =>
    if it.pout ≤ 0 then ([TcpAction.poll (wrap32 (conf_tcp_timeout * 1000))], true)
    else if (spliceSide it.revents0 it.recv0 afd infd).2 then
      (TcpAction.poll (wrap32 (conf_tcp_timeout * 1000)) ::
        (spliceSide it.revents0 it.recv0 afd infd).1, true)
    else if (spliceSide it.revents1 it.recv1 infd afd).2 then
      (TcpAction.poll (wrap32 (conf_tcp_timeout * 1000)) ::
        ((spliceSide it.revents0 it.recv0 afd infd).1 ++
          (spliceSide it.revents1 it.recv1 infd afd).1), true)
    else
      (TcpAction.poll (wrap32 (conf_tcp_timeout * 1000)) ::
        ((spliceSide it.revents0 it.recv0 afd infd).1 ++
          (spliceSide it.revents1 it.recv1 infd afd).1 ++
          (spliceLoop conf_tcp_timeout afd infd rest).1),
        (spliceLoop conf_tcp_timeout afd infd rest).2)

/-- The body of `tcpconn` for the accepted socket `afd`: `infd` is the result of
`ioth_msocket`, `connect` the result of `ioth_connect`.  The second component tells
whether the function returned. -/
def tcpconn (conf_tcp_timeout : Int) (afd infd connect : Int) (iters : List TcpIter) :
    List TcpAction × Bool :=
  let body : List TcpAction × Bool :=
    if 0 ≤ connect then spliceLoop conf_tcp_timeout afd infd iters else ([], true)
  if body.2 then
    (TcpAction.ioth_connect infd :: (body.1 ++
      [TcpAction.ioth_close infd, TcpAction.ioth_close afd, TcpAction.extstack_usagedown,
        TcpAction.free]), true)
  else (TcpAction.ioth_connect infd :: body.1, false)

/-- The chunks (length, bytes) handed to `ioth_send` on `fd`, in order. -/
def sentOn (fd : Int) : List TcpAction → List (Int × List Nat)
  | [] => []
  | TcpAction.ioth_send fd' data len :: rest =>
    if fd' = fd then (len, data) :: sentOn fd rest else sentOn fd rest
  | _ :: rest => sentOn fd rest

/-- The chunks (length, bytes) received from `fd` with a positive return value, in
order. -/
def receivedFrom (fd : Int) : List TcpAction → List (Int × List Nat)
  | [] => []
  | TcpAction.ioth_recv fd' n data :: rest =>
    if fd' = fd ∧ 0 < n then (n, data) :: receivedFrom fd rest else receivedFrom fd rest
  | _ :: rest => receivedFrom fd rest

/-- The answers of this iteration make the splice loop execute `break`: the wait
returned `<= 0`, or a receive that is executed returned `<= 0`. -/
def TcpIter.ends (it : TcpIter) : Bool :=
  decide (it.pout ≤ 0) ||
  (decide (Nat.land it.revents0 POLLIN ≠ 0) && decide (it.recv0.n ≤ 0)) ||
  (decide (Nat.land it.revents1 POLLIN ≠ 0) && decide (it.recv1.n ≤ 0))

/-- The calls of the splice loop itself: waits, receives and sends. -/
def TcpAction.isLoopCall : TcpAction → Bool
  | .poll _ => true
  | .ioth_recv _ _ _ => true
  | .ioth_send _ _ _ => true
  | _ => false

/-- A run of three iterations: `PING\n` arrives from the external peer, the
internal endpoint answers `OK`, the external peer closes. -/
def exIters : List TcpIter :=
  [⟨1, 1, ⟨5, [80, 73, 78, 71, 10]⟩, 0, ⟨0, []⟩⟩,
   ⟨1, 0, ⟨0, []⟩, 1, ⟨2, [79, 75]⟩⟩,
   ⟨1, 1, ⟨0, []⟩, 0, ⟨0, []⟩⟩]

/-! ## TCP listener and relay launch (`proxytcp.c`, `proxyudp.c`) -/

/-- The function `proxytcp` as far as the usage counter goes; `pthread_create` is the
value the call of that name returns (0 on success, an error number, which is
positive, on failure).  The `malloc` of the copied argument is taken to succeed, as
the source does. -/
def proxytcp (usage : UsageState) (pthread_create : Int) : UsageState :=
  if pthread_create < 0 then extstack_usagedown (extstack_usageup usage)
  else extstack_usageup usage

/-- The function `proxyudp` as far as the usage counter goes. -/
def proxyudp (usage : UsageState) (pthread_create : Int) : UsageState :=
  if pthread_create < 0 then extstack_usagedown (extstack_usageup usage)
  else extstack_usageup usage

/-- Calls issued by `tcplisten`. -/
inductive ListenAction where
  | ioth_bind (fd : Int) (port : Nat)
  | ioth_listen (fd : Int) (backlog : Int)
  | poll (timeout : Int)
  | ioth_accept (lfd : Int) (afd : Int)
  | extstack_usageup
  | pthread_create (afd : Int) (ret : Int)
  | extstack_usagedown
  | ioth_close (fd : Int)
  | free
deriving DecidableEq, Repr

/-- What the environment answers for one listening socket in one iteration of
`tcplisten`: its `revents` and, read only if the socket is readable, the results of
`ioth_accept`, of `malloc` (`false` is `NULL`) and of `pthread_create`. -/
structure AcceptInput where
  revents : Nat
  afd : Int
  malloc : Bool
  pthread_create : Int
deriving DecidableEq, Repr

/-- What the environment answers in one iteration of `tcplisten`: the return value of
`poll`, the answers for each listening socket, and the value of `time(NULL)` read at
the end of the body. -/
structure ListenIter where
  pout : Int
  ports : List AcceptInput
  now : Int
deriving DecidableEq, Repr

/-- The usage counter as this thread's calls change it, and the calls issued. -/
structure ListenState where
  usage : UsageState
  trace : List ListenAction
deriving DecidableEq, Repr

/-- Body of the loop over the listening sockets of `tcplisten` for the socket `lfd`. -/
def acceptStep (st : ListenState) (lfd : Int) (a : AcceptInput) : ListenState :=
  if Nat.land a.revents POLLIN ≠ 0 then
    if a.malloc = true then
      if a.pthread_create < 0 then
        { usage := extstack_usagedown (extstack_usageup st.usage)
          trace := st.trace ++ [ListenAction.ioth_accept lfd a.afd,
            ListenAction.extstack_usageup,
            ListenAction.pthread_create a.afd a.pthread_create,
            ListenAction.extstack_usagedown] }
      else
        { usage := extstack_usageup st.usage
          trace := st.trace ++ [ListenAction.ioth_accept lfd a.afd,
            ListenAction.extstack_usageup,
            ListenAction.pthread_create a.afd a.pthread_create] }
    else { st with trace := st.trace ++ [ListenAction.ioth_accept lfd a.afd] }
  else st

/-- The loop `for (;;)` of `tcplisten` on a sequence of answers of the environment;
`timeout` is the current value of the variable of that name, converted to `int` when
it is recomputed.  The second component tells whether the loop was left. -/
def tcplistenLoop (expire : Int) (pfd : List Int) :
    Int → ListenState → List ListenIter → ListenState × Bool
  | _, st, [] => (st, false)
  | timeout, st, it :: rest =>
    if it.pout ≤ 0 then
      ({ st with trace := st.trace ++ [ListenAction.poll timeout] }, true)
    else
      tcplistenLoop expire pfd (wrap32 ((expire - it.now + 1) * 1000))
        ((pfd.zip it.ports).foldl (fun acc x => acceptStep acc x.1 x.2)
          { st with trace := st.trace ++ [ListenAction.poll timeout] })
        rest

/-- The set-up calls of `tcplisten` for port index `i`. -/
def listenInit (item : List proxy_item) (conf_tcp_listen_backlog : Int) (msocket : Nat → Int)
    (i : Nat) : List ListenAction :=
  [ListenAction.ioth_bind (msocket i) ((item.getD i ⟨0, ⟨0, 0, [], 0⟩⟩).extport),
    ListenAction.ioth_listen (msocket i) conf_tcp_listen_backlog]

/-- The function `tcplisten`: `msocket i` is the socket `ioth_msocket` returned for
port index `i`, `now0` the value of the first `time(NULL)`, `usage` the counter when
the thread starts.  The second component tells whether the function returned. -/
def tcplisten (conf_otip_lifetime conf_tcp_listen_backlog : Int) (item : List proxy_item)
    (msocket : Nat → Int) (now0 : Int) (usage : UsageState) (iters : List ListenIter) :
    ListenState × Bool :=
  let pfd := (List.range item.length).map msocket
  let r := tcplistenLoop (now0 + conf_otip_lifetime) pfd
    (wrap32 ((conf_otip_lifetime + 1) * 1000))
    { usage := usage
      trace := (List.range item.length).flatMap
        (listenInit item conf_tcp_listen_backlog msocket) }
    iters
  if r.2 then
    ({ usage := extstack_usagedown r.1.usage
       trace := r.1.trace ++ pfd.map ListenAction.ioth_close ++
         [ListenAction.extstack_usagedown, ListenAction.free] }, true)
  else r

/-- The timeouts handed to `poll`, in order. -/
def pollTimeouts : List ListenAction → List Int
  | [] => []
  | ListenAction.poll t :: rest => t :: pollTimeouts rest
  | _ :: rest => pollTimeouts rest

/-- A connection on a readable listening socket: accepted as socket 5, the thread
cannot be created (`pthread_create` returns `EAGAIN`, 11). -/
def exAcceptFail : AcceptInput := ⟨1, 5, true, 11⟩

/-- A listener started at time 100 with lifetime 48 (expiry 148): a connection is
accepted at the very end of the first wait and the body ends at time 150; the second
wait returns with another connection at time 5000. -/
def exListenIters : List ListenIter :=
  [⟨1, [⟨1, 5, true, 0⟩], 150⟩, ⟨1, [⟨1, 6, true, 0⟩], 5000⟩]

/-! ## Epoch rotator (`main` of `otip_rproxy.c`) -/

/-- Calls issued by the main loop of `main`. -/
inductive RotAction where
  | ioth_newstack
  | calloc
  | extstack_usageup
  | ioth_if_nametoindex
  | iothaddr_hash (otiptime : Nat)
  | ioth_ipaddr_add (iface : Int)
  | ioth_linksetupdown (iface : Int)
  | proxytcp
  | proxyudp
  | extstack_usagedown
  | sleep
deriving DecidableEq, Repr

/-- What the environment answers in one iteration of the main loop: the value of
`iothaddr_otiptime`, whether `ioth_newstack` and `calloc` return non-null, and the
interface index. -/
structure TickInput where
  otiptime : Nat
  newstack : Bool
  calloc : Bool
  iface : Int
deriving DecidableEq, Repr

/-- The variable `last_otiptime` and the calls issued so far. -/
structure RotState where
  last_otiptime : Nat
  trace : List RotAction
deriving DecidableEq, Repr

/-- State of the main loop when it is entered. -/
def RotState.init : RotState := ⟨0, []⟩

/-- One iteration of the main loop `for(;;)`, up to and including `sleep(1)`. -/
def rotatorTick (s : RotState) (inp : TickInput) : RotState :=
  if inp.otiptime ≠ s.last_otiptime then
    if inp.newstack = true then
      if inp.calloc = true then
        { last_otiptime := inp.otiptime
          trace := s.trace ++ [RotAction.ioth_newstack, RotAction.calloc,
            RotAction.extstack_usageup, RotAction.ioth_if_nametoindex,
            RotAction.iothaddr_hash inp.otiptime, RotAction.ioth_ipaddr_add inp.iface,
            RotAction.ioth_linksetupdown inp.iface, RotAction.ioth_linksetupdown 1,
            RotAction.proxytcp, RotAction.proxyudp, RotAction.extstack_usagedown,
            RotAction.sleep] }
      else
        { last_otiptime := inp.otiptime
          trace := s.trace ++ [RotAction.ioth_newstack, RotAction.calloc, RotAction.sleep] }
    else
      { last_otiptime := inp.otiptime
        trace := s.trace ++ [RotAction.ioth_newstack, RotAction.sleep] }
  else { s with trace := s.trace ++ [RotAction.sleep] }

/-- The main loop on a sequence of answers of the environment. -/
def rotatorLoop (s : RotState) (ticks : List TickInput) : RotState :=
  ticks.foldl rotatorTick s

/-- Two wake-ups in epoch 5: stack creation fails at the first. -/
def exTicks : List TickInput := [⟨5, false, true, 2⟩, ⟨5, true, true, 2⟩]

/-! ## Options (`otip_rproxy.c`) -/

/-- What the platform and the C library contribute to option handling: whether plain
`char` is signed (it is on x86 Linux, it is not on ARM Linux), `strtol(s, NULL, 0)`,
and the conversion `sscanf(value, "%hu,%[^,],%hu\n", ...)` of a forwarding rule
(`none` when fewer than three fields are converted). -/
structure Platform where
  char_signed : Bool
  strtol : String → Int
  sscanf_proxy : String → Option (Nat × String × Nat)

/-- The value, as an `int`, of the character constant whose byte is `b`: the value of
a `char` holding `b` converted to `int`. -/
def charConst (P : Platform) (b : Nat) : Int :=
  if P.char_signed = true ∧ 128 ≤ b then (b : Int) - 256 else (b : Int)

/-- The `struct option` of `getopt.h` (the `flag` field is always 0 here). -/
structure struct_option where
  name : String
  has_arg : Nat
  val : Int
deriving DecidableEq, Repr

/-- The table `long_options`, without its terminating entry.  The letters are written
as their codes: `h` 104, `d` 100, `v` 118, `f` 102, `p` 112, `e` 101, `i` 105,
`n` 110, `b` 98, `P` 80, `u` 117, `t` 116, `D` 68; `\200` is 128, `\201` 129,
`\202` 130, `\210` 136, `\211` 137, `\212` 138. -/
def long_options (P : Platform) : List struct_option :=
  [⟨"help", 0, charConst P 104⟩,
   ⟨"daemon", 0, charConst P 100⟩,
   ⟨"verbose", 0, charConst P 118⟩,
   ⟨"rcfile", 1, charConst P 102⟩,
   ⟨"pidfile", 1, charConst P 112⟩,
   ⟨"extstack", 1, charConst P 101⟩,
   ⟨"intstack", 1, charConst P 105⟩,
   ⟨"name", 1, charConst P 110⟩,
   ⟨"base", 1, charConst P 98⟩,
   ⟨"baseaddr", 1, charConst P 98⟩,
   ⟨"passwd", 1, charConst P 80⟩,
   ⟨"udp", 1, charConst P 117⟩,
   ⟨"tcp", 1, charConst P 116⟩,
   ⟨"dns", 1, charConst P 68⟩,
   ⟨"otip_period", 1, charConst P 128⟩,
   ⟨"otip_postactive", 1, charConst P 129⟩,
   ⟨"otip_preactive", 1, charConst P 130⟩,
   ⟨"tcp_listen_backlog", 1, charConst P 136⟩,
   ⟨"tcp_timeout", 1, charConst P 137⟩,
   ⟨"udp_timeout", 1, charConst P 138⟩]

/-- The string `short_options`: each letter with whether a colon follows it. -/
def short_options : List (Nat × Bool) :=
  [(104, false), (100, false), (118, false), (102, true), (112, true), (101, true),
   (105, true), (110, true), (98, true), (80, true), (117, true), (116, true), (68, true)]

/-- The bytes of the string `arg_tags`. -/
def arg_tags : List Nat :=
  [100, 118, 112, 101, 105, 110, 98, 80, 68, 128, 129, 130, 136, 137, 138]

/-- The function `argindex`, also the expression `strchrnul(arg_tags, val) - arg_tags`
of `parse_rc_file`: the position of the first byte of `arg_tags` equal to the byte of
`tag`, the length of `arg_tags` when there is none. -/
def argindex (tag : Int) : Nat :=
  arg_tags.findIdx (fun b => b == (tag % 256).toNat)

/-- The union `args`: the array `argv` overlays the named fields, all of type
`char *`, so field number `k` of the struct is `argv[k]`; `none` is `NULL`. -/
structure Args where
  argv : List (Option String)
deriving DecidableEq, Repr

/-- The zero-initialised static `args`. -/
def Args.init : Args := ⟨List.replicate 15 none⟩

/-- Field `daemon`, number 0 of the struct. -/
def Args.daemon (a : Args) : Option String := a.argv.getD 0 none
/-- Field `verbose`, number 1. -/
def Args.verbose (a : Args) : Option String := a.argv.getD 1 none
/-- Field `pidfile`, number 2. -/
def Args.pidfile (a : Args) : Option String := a.argv.getD 2 none
/-- Field `extstack`, number 3. -/
def Args.extstack (a : Args) : Option String := a.argv.getD 3 none
/-- Field `intstack`, number 4. -/
def Args.intstack (a : Args) : Option String := a.argv.getD 4 none
/-- Field `name`, number 5. -/
def Args.name (a : Args) : Option String := a.argv.getD 5 none
/-- Field `baseaddr`, number 6. -/
def Args.baseaddr (a : Args) : Option String := a.argv.getD 6 none
/-- Field `passwd`, number 7. -/
def Args.passwd (a : Args) : Option String := a.argv.getD 7 none
/-- Field `dns`, number 8. -/
def Args.dns (a : Args) : Option String := a.argv.getD 8 none
/-- Field `otip_period`, number 9. -/
def Args.otip_period (a : Args) : Option String := a.argv.getD 9 none
/-- Field `otip_preactive`, number 10. -/
def Args.otip_preactive (a : Args) : Option String := a.argv.getD 10 none
/-- Field `otip_postactive`, number 11. -/
def Args.otip_postactive (a : Args) : Option String := a.argv.getD 11 none
/-- Field `tcp_listen_backlog`, number 12. -/
def Args.tcp_listen_backlog (a : Args) : Option String := a.argv.getD 12 none
/-- Field `tcp_timeout`, number 13. -/
def Args.tcp_timeout (a : Args) : Option String := a.argv.getD 13 none
/-- Field `udp_timeout`, number 14. -/
def Args.udp_timeout (a : Args) : Option String := a.argv.getD 14 none

/-- The statement `if (args.argv[index] == NULL) args.argv[index] = v`. -/
def Args.setIfNull (a : Args) (index : Nat) (v : String) : Args :=
  if a.argv.getD index none = none then ⟨a.argv.set index (some v)⟩ else a

/-- The `struct proxyarg` written to the memory stream `prox`. -/
structure struct_proxyarg where
  type : Nat
  extport : Nat
  intaddr_str : String
  intport : Nat
deriving DecidableEq, Repr

/-- The function `addproxy`: the stream with the rule appended, `none` for `-1`. -/
def addproxy (P : Platform) (type : Nat) (value : String) (prox : List struct_proxyarg) :
    Option (List struct_proxyarg) :=
  match P.sscanf_proxy value with
  | some (extport, intaddr_str, intport) =>
    if 0 < extport ∧ 0 < intport then some (prox ++ [⟨type, extport, intaddr_str, intport⟩])
    else none
  | none => none

/-- The function `proxyarg`: `none` for `-1`. -/
def proxyarg (P : Platform) (optname value : String) (prox : List struct_proxyarg) :
    Option (List struct_proxyarg) :=
  if optname = "udp" then addproxy P 117 value prox
  else if optname = "tcp" then addproxy P 116 value prox
  else none

/-- One option occurrence on the command line: `--name [optarg]` or `-c [optarg]`. -/
inductive CliArg where
  | long (name : String) (optarg : Option String)
  | short (c : Nat) (optarg : Option String)
deriving DecidableEq, Repr

/-- The library function `getopt_long` applied to one option occurrence of a command
line that holds options only: the value returned and `optarg`.  A long option returns
the `val` of its entry of `long_options`, a short option its letter; an unknown option
or a missing argument returns `?` (63).  Abbreviated long names are not modelled. -/
def getopt_long (P : Platform) : CliArg → Int × Option String
  | .long name optarg =>
    match (long_options P).find? (fun o => o.name == name) with
    | none => (63, none)
    | some o =>
      if o.has_arg = 1 then
        match optarg with
        | some a => (o.val, some a)
        | none => (63, none)
      else (o.val, none)
  | .short c optarg =>
    match short_options.find? (fun o => o.1 == c) with
    | none => (63, none)
    | some o =>
      if o.2 then
        match optarg with
        | some a => ((c : Int), some a)
        | none => (63, none)
      else ((c : Int), none)

/-- Variables of `main` set while the options are read. -/
structure OptState where
  args : Args
  rcfile : Option String
  prox : List struct_proxyarg
  err : Bool
deriving DecidableEq, Repr

/-- State of `main` before the first option is read. -/
def OptState.init : OptState := ⟨Args.init, none, [], false⟩

/-- The loop `while(1)` over the command line.  `getopt_long` returns `-1` after the
last option.  When it returns a negative value for an option, the loop is left with
the options after it unread, so that `optind != argc` and `usage` exits with code 1,
unless it was the last option.  `Except.error 1` is `usage`, which calls `exit(1)`. -/
def cliLoop (P : Platform) : OptState → List CliArg → Except Nat OptState
  | st, [] => .ok st
  | st, a :: rest =>
    if (getopt_long P a).1 < 0 then
      if rest.isEmpty then .ok st else .error 1
    else if (getopt_long P a).1 = 102 then
      cliLoop P { st with rcfile := (getopt_long P a).2 } rest
    else if (getopt_long P a).1 = -1 ∨ (getopt_long P a).1 = 63 ∨ (getopt_long P a).1 = 104 then
      .error 1
    else if (getopt_long P a).1 = 117 then
      match proxyarg P "udp" ((getopt_long P a).2.getD "") st.prox with
      | none => cliLoop P { st with err := true } rest
      | some prox => cliLoop P { st with prox := prox } rest
    else if (getopt_long P a).1 = 116 then
      match proxyarg P "tcp" ((getopt_long P a).2.getD "") st.prox with
      | none => cliLoop P { st with err := true } rest
      | some prox => cliLoop P { st with prox := prox } rest
    else
      cliLoop P
        { st with
          args := st.args.setIfNull (argindex (getopt_long P a).1)
            ((getopt_long P a).2.getD "") } rest

/-- One line of the configuration file as `parse_rc_file` sees it: skipped (comment or
empty), not converted by `sscanf` (syntax error), or converted to an option name and a
value (the value is empty when the line has none). -/
inductive RcLine where
  | skip
  | syntaxError
  | kv (optname : String) (value : String)
deriving DecidableEq, Repr

/-- Body of the loop of `parse_rc_file` called with `long_options` and `proxyarg`:
the state and `retvalue`. -/
def parse_rc_line (P : Platform) (st : OptState × Int) : RcLine → OptState × Int
  | .skip => st
  | .syntaxError => (st.1, -1)
  | .kv optname value =>
    match (long_options P).find? (fun o => o.name == optname) with
    | some o =>
      if argindex o.val < arg_tags.length then
        ({ st.1 with args := st.1.args.setIfNull (argindex o.val) value }, st.2)
      else
        match proxyarg P optname value st.1.prox with
        | none => (st.1, -1)
        | some prox => ({ st.1 with prox := prox }, st.2)
    | none =>
      match proxyarg P optname value st.1.prox with
      | none => (st.1, -1)
      | some prox => ({ st.1 with prox := prox }, st.2)

/-- The function `parse_rc_file` on the lines of a file that could be opened. -/
def parse_rc_file (P : Platform) (st : OptState) (lines : List RcLine) : OptState × Int :=
  lines.foldl (parse_rc_line P) (st, 0)

/-- Option handling of `main` up to the end of the configuration file: `cli` is the
command line, `rcfiles path` the lines of the file `path` (`none` when it cannot be
opened).  `Except.error 1` is `exit(1)`. -/
def main_options (P : Platform) (cli : List CliArg) (rcfiles : String → Option (List RcLine)) :
    Except Nat OptState :=
  if cli.isEmpty then .error 1
  else
    match cliLoop P OptState.init cli with
    | .error e => .error e
    | .ok st =>
      if st.err then .error 1
      else
        match st.rcfile with
        | none => .ok st
        | some path =>
          match rcfiles path with
          | none => .error 1
          | some lines =>
            if (parse_rc_file P st lines).2 < 0 then .error 1
            else .ok (parse_rc_file P st lines).1

/-- The configuration globals of `otip_rproxy.c`. -/
structure Conf where
  conf_otip_period : Int
  conf_otip_preactive : Int
  conf_otip_postactive : Int
  conf_otip_lifetime : Int
  conf_tcp_listen_backlog : Int
  conf_tcp_timeout : Int
  conf_udp_timeout : Int
deriving DecidableEq, Repr

/-- The statement `if (s) conf = strtol(s, NULL, 0);` for a global whose initial value
is `dflt`; the `long` result is converted to `int`. -/
def convOpt (P : Platform) (dflt : Int) : Option String → Int
  | none => dflt
  | some s => wrap32 (P.strtol s)

/-- The conversions of the numeric options in `main`, from the initial values of the
globals. -/
def main_conf (P : Platform) (a : Args) : Conf :=
  { conf_otip_period := convOpt P 32 a.otip_period
    conf_otip_preactive := convOpt P 8 a.otip_preactive
    conf_otip_postactive := convOpt P 8 a.otip_postactive
    conf_otip_lifetime := wrap32 (convOpt P 32 a.otip_period + convOpt P 8 a.otip_preactive +
      convOpt P 8 a.otip_postactive)
    conf_tcp_listen_backlog := convOpt P 5 a.tcp_listen_backlog
    conf_tcp_timeout := convOpt P 120 a.tcp_timeout
    conf_udp_timeout := convOpt P 8 a.udp_timeout }

/-- The `struct extargs`; `none` is `NULL`. -/
structure extargs where
  stack : Option String
  vnl : Option String
  iface : Option String
deriving DecidableEq, Repr

/-- What the libraries and the system answer while `main` starts up, between the end
of option handling and the conversion of the numeric options: `stropt` (the count
`tagc` and the tag and argument pairs before the terminating entry), whether
`ioth_newstackc` returns a stack, the address `iothdns_lookup_aaaa_compat` finds for a
name (`none` when it finds fewer than one), whether `calloc` returns memory, the
macro `htons`, whether `getcwd` returns a path, whether `daemon` returns 0, and
whether the three calls of `save_pidfile` succeed. -/
structure StartupEnv where
  stropt : String → Int × List (String × String)
  ioth_newstackc : Bool
  lookup_aaaa : String → Option (List Nat)
  calloc : Bool
  htons : Nat → Nat
  getcwd : Bool
  daemon : Bool
  pidfile_written : Bool

/-- The loop of `parse_extargs` over the tags: `none` for `return NULL`. -/
def parse_extargs_loop : extargs → List (String × String) → Option extargs
  | e, [] => some e
  | e, (tag, arg) :: rest =>
    if tag = "stack" then parse_extargs_loop { e with stack := some arg } rest
    else if tag = "vnl" then parse_extargs_loop { e with vnl := some arg } rest
    else if tag = "iface" then parse_extargs_loop { e with iface := some arg } rest
    else none

/-- The function `parse_extargs` on the zero-initialised static `eargs`. -/
def parse_extargs (env : StartupEnv) (input : String) : Option extargs :=
  if 0 < (env.stropt input).1 then
    parse_extargs_loop ⟨none, none, none⟩
      ((env.stropt input).2.take ((env.stropt input).1 - 1).toNat)
  else none

/-- The function `proxyarg2proxy` for the rules of one type (`t` is 116, `u` 117):
`none` for `NULL`, returned when `calloc` fails or a name is not resolved. -/
def proxyarg2proxy (env : StartupEnv) (type : Nat) (arg : List struct_proxyarg) :
    Option (List proxy_item) :=
  if env.calloc = true then
    if (arg.filter (fun a => a.type == type)).all
        (fun a => (env.lookup_aaaa a.intaddr_str).isSome) then
      some ((arg.filter (fun a => a.type == type)).map
        (fun a => ⟨a.extport,
          ⟨env.htons a.intport, 0, (env.lookup_aaaa a.intaddr_str).getD [], 0⟩⟩))
    else none
  else none

/-- What `main` holds when it enters its main loop. -/
structure Startup where
  args : Args
  extargs : extargs
  proxytcptab : List proxy_item
  proxyudptab : List proxy_item
  conf : Conf
deriving DecidableEq, Repr

/-- The function `main` from its first statement to the conversion of the numeric
options, with every `exit(1)` on the way: option handling, the required `extstack`,
`parse_extargs`, the internal stack, the required `baseaddr` and its lookup, the two
forwarding tables, `getcwd`, `daemon` and `save_pidfile`.  `Except.error 1` is
`exit(1)`. -/
def main_startup (P : Platform) (env : StartupEnv) (cli : List CliArg)
    (rcfiles : String → Option (List RcLine)) : Except Nat Startup :=
  match main_options P cli rcfiles with
  | .error e => .error e
  | .ok st =>
    match st.args.extstack with
    | none => .error 1
    | some ext =>
      match parse_extargs env ext with
      | none => .error 1
      | some ea =>
        if env.ioth_newstackc = false then .error 1
        else
          match st.args.baseaddr with
          | none => .error 1
          | some base =>
            match env.lookup_aaaa base with
            | none => .error 1
            | some _ =>
              match proxyarg2proxy env 116 st.prox, proxyarg2proxy env 117 st.prox with
              | some tcptab, some udptab =>
                if env.getcwd = false then .error 1
                else if st.args.daemon.isSome = true ∧ env.daemon = false then .error 1
                else if st.args.pidfile.isSome = true ∧ env.pidfile_written = false then
                  .error 1
                else
                  .ok { args := st.args
                        extargs := { ea with iface := some (ea.iface.getD "vde0") }
                        proxytcptab := tcptab
                        proxyudptab := udptab
                        conf := main_conf P st.args }
              | _, _ => .error 1

/-- An environment in which every call of the start-up succeeds: `stropt` finds the
one tag `vnl`, every name resolves to `fc00::1`. -/
def exEnv : StartupEnv :=
  { stropt := fun _ => (2, [("vnl", "vde://")])
    ioth_newstackc := true
    lookup_aaaa := fun _ => some [0xfc, 0, 0, 0, 0, 0, 0, 0, 0, 0, 0, 0, 0, 0, 0, 1]
    calloc := true
    htons := fun x => x % 256 * 256 + x / 256
    getcwd := true
    daemon := true
    pidfile_written := true }

/-- A platform with signed plain `char`, as x86 Linux. -/
def exSigned (strtol : String → Int) (sscanf_proxy : String → Option (Nat × String × Nat)) :
    Platform := ⟨true, strtol, sscanf_proxy⟩

/-- The command line `-e vnl=vde:// -b fc00::1 -f rc --udp_timeout 20`. -/
def exCli : List CliArg :=
  [CliArg.short 101 (some "vnl=vde://"), CliArg.short 98 (some "fc00::1"),
   CliArg.short 102 (some "rc"), CliArg.long "udp_timeout" (some "20")]

/-- A configuration file `rc` with the one line `udp_timeout 5`. -/
def exRc (path : String) : Option (List RcLine) :=
  if path = "rc" then some [RcLine.kv "udp_timeout" "5"] else none

/-- A configuration file `rc` with the one line `otip_preactive v`. -/
def exRcPre (v : String) (path : String) : Option (List RcLine) :=
  if path = "rc" then some [RcLine.kv "otip_preactive" v] else none

/-- A configuration file `rc` with the one line `otip_postactive v`. -/
def exRcPost (v : String) (path : String) : Option (List RcLine) :=
  if path = "rc" then some [RcLine.kv "otip_postactive" v] else none

/-- The command line `-e vnl=vde:// -b fc00::1 -f rc`. -/
def exCliRc : List CliArg :=
  [CliArg.short 101 (some "vnl=vde://"), CliArg.short 98 (some "fc00::1"),
   CliArg.short 102 (some "rc")]

/-! # Theorems -/

/-! ### Lemmas on the usage counter -/

theorem usageRun_snoc (l : List UsageOp) (op : UsageOp) :
    usageRun (l ++ [op]) = UsageOp.apply (usageRun l) op := by
  simp [usageRun, List.foldl_append]

theorem wrap32_of_range (x : Int) (h1 : -2147483648 ≤ x) (h2 : x < 2147483648) :
    wrap32 x = x := by
  unfold wrap32
  rw [Int.emod_eq_of_lt (by omega) (by omega)]
  omega

theorem wrap32_range (x : Int) : -2147483648 ≤ wrap32 x ∧ wrap32 x < 2147483648 := by
  unfold wrap32
  have h1 := Int.emod_nonneg (x + 2147483648) (show (4294967296 : Int) ≠ 0 by decide)
  have h2 := Int.emod_lt_of_pos (x + 2147483648) (show (0 : Int) < 4294967296 by decide)
  constructor <;> omega

theorem wrap32_succ_ne (x : Int) : wrap32 (x + 1) ≠ x := by
  unfold wrap32
  omega

/-- The count of a counter that was only acquired and released is an `int`. -/
theorem usageRun_range (l : List UsageOp) :
    -2147483648 ≤ (usageRun l).count ∧ (usageRun l).count < 2147483648 := by
  induction l using List.reverseRecOn with
  | nil => simp [usageRun, UsageState.calloc]
  | append_singleton l op ih =>
    rw [usageRun_snoc]
    cases op
    · simp only [UsageOp.apply, extstack_usageup]
      exact wrap32_range _
    · simp only [UsageOp.apply, extstack_usagedown]
      split
      · exact wrap32_range _
      · exact wrap32_range _

/-- While the count is positive after every non-empty initial segment, it never wraps:
it is the number of acquires minus the number of releases. -/
theorem usageRun_count (l : List UsageOp)
    (hpos : ∀ k, 0 < k → k ≤ l.length → 0 < (usageRun (l.take k)).count) :
    (usageRun l).count = (l.count UsageOp.up : Int) - (l.count UsageOp.down : Int) := by
  induction l using List.reverseRecOn with
  | nil => simp [usageRun, UsageState.calloc]
  | append_singleton l op ih =>
    have ih2 := ih (fun k hk hkl => by
      have h := hpos k hk (by simp; omega)
      rwa [List.take_append_of_le_length hkl] at h)
    have hlast := hpos (l.length + 1) (by omega) (by simp)
    rw [show (l ++ [op]).take (l.length + 1) = l ++ [op] by
      rw [List.take_of_length_le]; simp] at hlast
    have hrange := usageRun_range l
    have hnonneg : 0 ≤ (usageRun l).count := by
      rcases Nat.eq_zero_or_pos l.length with h0 | h0
      · rw [List.length_eq_zero] at h0
        subst h0
        simp [usageRun, UsageState.calloc]
      · have := hpos l.length h0 (by simp)
        rw [List.take_append_of_le_length (Nat.le_refl _), List.take_length] at this
        omega
    rw [usageRun_snoc] at hlast ⊢
    cases op
    · simp only [UsageOp.apply, extstack_usageup] at hlast ⊢
      have hlt : (usageRun l).count + 1 < 2147483648 := by
        by_contra hge
        have heq : (usageRun l).count + 1 = 2147483648 := by omega
        rw [heq] at hlast
        revert hlast
        decide
      rw [wrap32_of_range _ (by omega) hlt, ih2]
      simp [List.count_append]
      ring
    · have hw : wrap32 ((usageRun l).count - 1) = (usageRun l).count - 1 :=
        wrap32_of_range _ (by omega) (by omega)
      simp only [UsageOp.apply, extstack_usagedown, hw]
      split <;> simp [ih2, List.count_append] <;> ring

/-- While the count is positive after every non-empty initial segment, nothing has
been destroyed or freed. -/
theorem usageRun_no_destroy (l : List UsageOp)
    (hpos : ∀ k, 0 < k → k ≤ l.length → 0 < (usageRun (l.take k)).count) :
    (usageRun l).delstack = 0 ∧ (usageRun l).freed = 0 := by
  induction l using List.reverseRecOn with
  | nil => simp [usageRun, UsageState.calloc]
  | append_singleton l op ih =>
    have ih2 := ih (fun k hk hkl => by
      have h := hpos k hk (by simp; omega)
      rwa [List.take_append_of_le_length hkl] at h)
    have hlast := hpos (l.length + 1) (by omega) (by simp)
    rw [show (l ++ [op]).take (l.length + 1) = l ++ [op] by
      rw [List.take_of_length_le]; simp] at hlast
    rw [usageRun_snoc] at hlast ⊢
    cases op
    · simpa [UsageOp.apply, extstack_usageup] using ih2
    · simp only [UsageOp.apply, extstack_usagedown] at hlast ⊢
      split
      · rename_i h0
        rw [if_pos h0] at hlast
        simp only at hlast
        omega
      · simpa using ih2

theorem usageRun_take_no_destroy (ops : List UsageOp)
    (hpos : ∀ k, 0 < k → k < ops.length → 0 < (usageRun (ops.take k)).count)
    (k : Nat) (hk : k < ops.length) :
    (usageRun (ops.take k)).delstack = 0 ∧ (usageRun (ops.take k)).freed = 0 := by
  apply usageRun_no_destroy
  intro j hj hjl
  rw [List.length_take] at hjl
  rw [List.take_take, Nat.min_eq_left (by omega)]
  exact hpos j hj (by omega)

/-- C1: for every sequence of acquires and releases on a fresh counter in which the
acquires and releases balance and the count is positive after every non-empty proper
initial segment, the stack is deleted exactly once and the counter freed exactly once,
by the last operation, which is a release; after every proper initial segment (where
an acquire is still unmatched) nothing has been deleted or freed. -/
theorem usage_destroyed_exactly_once (ops : List UsageOp) (hne : ops ≠ [])
    (hbal : ops.count UsageOp.up = ops.count UsageOp.down)
    (hpos : ∀ k, 0 < k → k < ops.length → 0 < (usageRun (ops.take k)).count) :
    (usageRun ops).delstack = 1 ∧ (usageRun ops).freed = 1 ∧
    (usageRun ops).count = 0 ∧
    ops.getLast? = some UsageOp.down ∧
    (∀ k, k < ops.length →
      (usageRun (ops.take k)).delstack = 0 ∧ (usageRun (ops.take k)).freed = 0) := by
  have hpre := usageRun_take_no_destroy ops hpos
  rcases List.eq_nil_or_concat ops with h | ⟨init, last, h⟩
  · exact absurd h hne
  · rw [List.concat_eq_append] at h
    subst h
    have hinit := hpre init.length (by simp)
    simp only [List.take_left] at hinit
    have hposinit : ∀ k, 0 < k → k ≤ init.length → 0 < (usageRun (init.take k)).count := by
      intro k hk hkl
      have := hpos k hk (by simp; omega)
      rwa [List.take_append_of_le_length hkl] at this
    have hcinit := usageRun_count init hposinit
    have hnonneg : 0 ≤ (usageRun init).count := by
      rcases Nat.eq_zero_or_pos init.length with h0 | h0
      · rw [List.length_eq_zero] at h0
        subst h0
        simp [usageRun, UsageState.calloc]
      · have := hposinit init.length h0 (Nat.le_refl _)
        rw [List.take_length] at this
        omega
    have hlast : last = UsageOp.down := by
      cases last
      · have h3 : init.count UsageOp.up + 1 = init.count UsageOp.down := by
          simpa [List.count_append] using hbal
        omega
      · rfl
    subst hlast
    have hone : (usageRun init).count = 1 := by
      have h3 : init.count UsageOp.up = init.count UsageOp.down + 1 := by
        simpa [List.count_append] using hbal
      omega
    have h0 : wrap32 ((usageRun init).count - 1) = 0 := by
      rw [hone]
      decide
    rw [usageRun_snoc]
    simp only [UsageOp.apply, extstack_usagedown]
    rw [if_pos h0]
    refine ⟨by simp [hinit.1], by simp [hinit.2], h0, by simp, hpre⟩

/-- Witness for C1 on the operations of one epoch whose two relays start and end:
the rotator acquires, both relays acquire, the rotator releases, both relays release. -/
theorem usage_destroyed_exactly_once_witness :
    (usageRun [UsageOp.up, UsageOp.up, UsageOp.up, UsageOp.down, UsageOp.down,
      UsageOp.down]).delstack = 1 ∧
    (usageRun [UsageOp.up, UsageOp.up, UsageOp.up, UsageOp.down, UsageOp.down,
      UsageOp.down]).freed = 1 ∧
    (usageRun [UsageOp.up, UsageOp.up, UsageOp.up, UsageOp.down, UsageOp.down,
      UsageOp.down]).count = 0 ∧
    [UsageOp.up, UsageOp.up, UsageOp.up, UsageOp.down, UsageOp.down,
      UsageOp.down].getLast? = some UsageOp.down ∧
    (∀ k, k < [UsageOp.up, UsageOp.up, UsageOp.up, UsageOp.down, UsageOp.down,
        UsageOp.down].length →
      (usageRun ([UsageOp.up, UsageOp.up, UsageOp.up, UsageOp.down, UsageOp.down,
        UsageOp.down].take k)).delstack = 0 ∧
      (usageRun ([UsageOp.up, UsageOp.up, UsageOp.up, UsageOp.down, UsageOp.down,
        UsageOp.down].take k)).freed = 0) :=
  usage_destroyed_exactly_once _ (by decide) (by decide) (by
    intro k hk hkl
    simp only [List.length] at hkl
    interval_cases k <;> decide)

/-- C2 (amended): for every counter value `c` with `1 <= c <= INT_MAX`, a release
leaves `c - 1`, and it deletes the stack and frees the counter exactly when the new
value is zero (otherwise it deletes and frees nothing); an acquire leaves `c + 1` when
`c < INT_MAX`, and it never deletes or frees anything. -/
theorem usage_release_acquire_step (s : UsageState) (hc : 1 ≤ s.count)
    (hmax : s.count ≤ INT_MAX) :
    (extstack_usagedown s).count = s.count - 1 ∧
    (((extstack_usagedown s).delstack = s.delstack + 1 ∧
        (extstack_usagedown s).freed = s.freed + 1) ↔ s.count - 1 = 0) ∧
    (((extstack_usagedown s).delstack = s.delstack ∧
        (extstack_usagedown s).freed = s.freed) ↔ s.count - 1 ≠ 0) ∧
    (s.count < INT_MAX → (extstack_usageup s).count = s.count + 1) ∧
    (extstack_usageup s).delstack = s.delstack ∧
    (extstack_usageup s).freed = s.freed := by
  unfold INT_MAX at hmax
  have hw : wrap32 (s.count - 1) = s.count - 1 := wrap32_of_range _ (by omega) (by omega)
  refine ⟨?_, ?_, ?_, ?_, rfl, rfl⟩
  · unfold extstack_usagedown
    simp only [hw]
    split <;> rfl
  · unfold extstack_usagedown
    simp only [hw]
    split
    · rename_i h0; simp [h0]
    · rename_i h0; simp [h0]
  · unfold extstack_usagedown
    simp only [hw]
    split
    · rename_i h0; simp [h0]
    · rename_i h0; simp [h0]
  · intro hlt
    unfold INT_MAX at hlt
    unfold extstack_usageup
    simp only
    exact wrap32_of_range _ (by omega) (by omega)

/-- Witness for C2 at the count 1 with nothing destroyed yet. -/
theorem usage_release_acquire_step_witness :
    (extstack_usagedown ⟨1, 0, 0⟩).count = 1 - 1 ∧
    (((extstack_usagedown ⟨1, 0, 0⟩).delstack = 0 + 1 ∧
        (extstack_usagedown ⟨1, 0, 0⟩).freed = 0 + 1) ↔ (1 : Int) - 1 = 0) ∧
    (((extstack_usagedown ⟨1, 0, 0⟩).delstack = 0 ∧
        (extstack_usagedown ⟨1, 0, 0⟩).freed = 0) ↔ (1 : Int) - 1 ≠ 0) ∧
    ((1 : Int) < INT_MAX → (extstack_usageup ⟨1, 0, 0⟩).count = 1 + 1) ∧
    (extstack_usageup ⟨1, 0, 0⟩).delstack = 0 ∧
    (extstack_usageup ⟨1, 0, 0⟩).freed = 0 :=
  usage_release_acquire_step ⟨1, 0, 0⟩ (by decide) (by decide)

/-- Counterexample to C2 as stated: at the counter value `c = INT_MAX = 2147483647`
(which is `>= 1`) an acquire leaves -2147483648, not `c + 1`. -/
theorem usage_acquire_wraps_at_int_max :
    (1 : Int) ≤ (⟨2147483647, 0, 0⟩ : UsageState).count ∧
    (extstack_usageup ⟨2147483647, 0, 0⟩).count = -2147483648 ∧
    (extstack_usageup ⟨2147483647, 0, 0⟩).count ≠ 2147483647 + 1 := by
  decide

/-! ### Lemmas on the flow search -/

theorem matches_iff (conn : udpconn) (sender : sockaddr_in6) (len : Nat) (ctlbuf : List Nat) :
    conn.matches sender len ctlbuf = true ↔
      conn.sender.sin6_port = sender.sin6_port ∧
      conn.sender.sin6_addr.take 16 = sender.sin6_addr.take 16 ∧
      conn.ctllen = len ∧
      conn.ctlbuf.take conn.ctllen = ctlbuf.take len := by
  unfold udpconn.matches memcmp_eq
  simp only [Bool.and_eq_true, beq_iff_eq]
  constructor
  · rintro ⟨⟨⟨h1, h2⟩, h3⟩, h4⟩
    exact ⟨h1, h2, h3.symm, by rw [h4, h3]⟩
  · rintro ⟨h1, h2, h3, h4⟩
    exact ⟨⟨⟨h1, h2⟩, h3.symm⟩, by rw [h4, h3]⟩

theorem findconn_none_iff (sender : sockaddr_in6) (len : Nat) (ctlbuf : List Nat)
    (l : List udpconn) :
    findconn sender len ctlbuf l = none ↔ ∀ c ∈ l, c.matches sender len ctlbuf = false := by
  induction l with
  | nil => simp [findconn]
  | cons c cs ih =>
    unfold findconn
    by_cases h : c.matches sender len ctlbuf = true
    · simp [h]
    · have h2 : c.matches sender len ctlbuf = false := by simpa using h
      rw [if_neg h]
      simp only [List.mem_cons, forall_eq_or_imp, h2, true_and]
      exact ih

theorem findconn_some_iff (sender : sockaddr_in6) (len : Nat) (ctlbuf : List Nat)
    (l : List udpconn) (conn : udpconn) :
    findconn sender len ctlbuf l = some conn ↔
      ∃ pre post, l = pre ++ conn :: post ∧ conn.matches sender len ctlbuf = true ∧
        ∀ c ∈ pre, c.matches sender len ctlbuf = false := by
  induction l with
  | nil => simp [findconn]
  | cons c cs ih =>
    unfold findconn
    by_cases h : c.matches sender len ctlbuf = true
    · rw [if_pos h]
      simp only [Option.some.injEq]
      constructor
      · rintro rfl
        exact ⟨[], cs, rfl, h, by simp⟩
      · rintro ⟨pre, post, hl, hm, hpre⟩
        cases pre with
        | nil => simp at hl; exact hl.1
        | cons d ds =>
          simp only [List.cons_append, List.cons.injEq] at hl
          have := hpre d (by simp)
          rw [← hl.1, h] at this
          exact absurd this (by simp)
    · rw [if_neg h, ih]
      constructor
      · rintro ⟨pre, post, hl, hm, hpre⟩
        refine ⟨c :: pre, post, by simp [hl], hm, ?_⟩
        intro d hd
        rcases List.mem_cons.1 hd with rfl | hd
        · simpa using h
        · exact hpre d hd
      · rintro ⟨pre, post, hl, hm, hpre⟩
        cases pre with
        | nil =>
          simp only [List.nil_append, List.cons.injEq] at hl
          rw [hl.1] at h
          exact absurd hm h
        | cons d ds =>
          simp only [List.cons_append, List.cons.injEq] at hl
          exact ⟨ds, post, hl.2, hm, fun e he => hpre e (by simp [he])⟩

theorem setExpireFound_split (sender : sockaddr_in6) (len : Nat) (ctlbuf : List Nat) (v : Int)
    (pre post : List udpconn) (conn : udpconn)
    (hm : conn.matches sender len ctlbuf = true)
    (hpre : ∀ c ∈ pre, c.matches sender len ctlbuf = false) :
    setExpireFound sender len ctlbuf v (pre ++ conn :: post) =
      pre ++ { conn with expire := v } :: post := by
  induction pre with
  | nil => simp [setExpireFound, hm]
  | cons d ds ih =>
    have hd := hpre d (by simp)
    have ih2 := ih (fun c hc => hpre c (by simp [hc]))
    rw [List.cons_append, setExpireFound, if_neg (by simp [hd]), ih2, List.cons_append]

/-- C6: the search condition holds for a flow exactly when its peer port, its 16 peer
address bytes and its ancillary bytes (length and content) equal the datagram's; the
search returns a flow exactly when it is the first flow of the list, in list order,
for which the condition holds, and it returns none exactly when the condition holds
for no flow of the list. -/
theorem findconn_first_match (sender : sockaddr_in6) (len : Nat) (ctlbuf : List Nat)
    (l : List udpconn) :
    (∀ conn : udpconn, conn.matches sender len ctlbuf = true ↔
      conn.sender.sin6_port = sender.sin6_port ∧
      conn.sender.sin6_addr.take 16 = sender.sin6_addr.take 16 ∧
      conn.ctllen = len ∧
      conn.ctlbuf.take conn.ctllen = ctlbuf.take len) ∧
    (∀ conn : udpconn, findconn sender len ctlbuf l = some conn ↔
      ∃ pre post, l = pre ++ conn :: post ∧ conn.matches sender len ctlbuf = true ∧
        ∀ c ∈ pre, c.matches sender len ctlbuf = false) ∧
    (findconn sender len ctlbuf l = none ↔
      ∀ c ∈ l, c.matches sender len ctlbuf = false) :=
  ⟨fun conn => matches_iff conn sender len ctlbuf,
    fun conn => findconn_some_iff sender len ctlbuf l conn,
    findconn_none_iff sender len ctlbuf l⟩

/-! ### External datagrams -/

theorem getD_set_ne {α : Type} (l : List α) (i j : Nat) (x d : α) (h : j ≠ i) :
    (l.set i x).getD j d = l.getD j d := by
  simp [List.getD_eq_getElem?_getD, List.getElem?_set_ne (Ne.symm h)]

theorem getD_set_self {α : Type} (l : List α) (i : Nat) (x d : α) (h : i < l.length) :
    (l.set i x).getD i d = x := by
  simp [List.getD_eq_getElem?_getD, List.getElem?_set_self h]

theorem findconn_some_lt (sender : sockaddr_in6) (len : Nat) (ctlbuf : List Nat)
    (fdconn : List (List udpconn)) (i : Nat) (conn : udpconn)
    (h : findconn sender len ctlbuf (fdconn.getD i []) = some conn) : i < fdconn.length := by
  by_contra hi
  have : fdconn.getD i [] = [] := by
    simp [List.getD_eq_getElem?_getD, List.getElem?_eq_none (Nat.le_of_not_lt hi)]
  rw [this] at h
  simp [findconn] at h

/-- C4 (amended): for every external datagram with a non-empty payload (`recvmsg`
returned `n > 0`) on port index `i` for which the search finds a flow `conn` in port
`i`'s list, the handler sends the payload on `conn.fd`, creates no flow, leaves every
list with the same members in the same order and changes only the expiry of `conn`,
which becomes `now + udp_timeout`; no condition on the epoch expiry is needed. -/
theorem ext_match_reuses_flow (cfg : UdpConf) (s : UdpState) (i : Nat) (r : ExtRecv)
    (conn : udpconn) (hn : 0 < r.n)
    (hfind : findconn r.sender r.msg_controllen r.ctlbuf (s.fdconn.getD i []) = some conn) :
    i < s.fdconn.length ∧
    (∀ j, j ≠ i → (extEvent cfg s i r).fdconn.getD j [] = s.fdconn.getD j []) ∧
    (extEvent cfg s i r).fdconn.length = s.fdconn.length ∧
    ∃ pre post,
      s.fdconn.getD i [] = pre ++ conn :: post ∧
      (∀ c ∈ pre, c.matches r.sender r.msg_controllen r.ctlbuf = false) ∧
      (extEvent cfg s i r).fdconn.getD i [] =
        pre ++ { conn with expire := s.now + cfg.conf_udp_timeout } :: post ∧
      extEvent cfg s i r =
        { s with
          fdconn := s.fdconn.set i
            (pre ++ { conn with expire := s.now + cfg.conf_udp_timeout } :: post)
          trace := s.trace ++ [Action.send conn.fd (payload r.buf r.n) r.n,
            Action.store_expire conn.ptr (s.now + cfg.conf_udp_timeout)] } := by
  have hi := findconn_some_lt _ _ _ _ _ _ hfind
  obtain ⟨pre, post, hl, hm, hpre⟩ := (findconn_some_iff _ _ _ _ _).1 hfind
  have hstate : extEvent cfg s i r =
      { s with
        fdconn := s.fdconn.set i
          (pre ++ { conn with expire := s.now + cfg.conf_udp_timeout } :: post)
        trace := s.trace ++ [Action.send conn.fd (payload r.buf r.n) r.n,
          Action.store_expire conn.ptr (s.now + cfg.conf_udp_timeout)] } := by
    unfold extEvent
    rw [if_pos hn, hfind]
    simp only
    rw [hl, setExpireFound_split _ _ _ _ _ _ _ hm hpre]
  refine ⟨hi, ?_, ?_, pre, post, hl, hpre, ?_, hstate⟩
  · intro j hj
    rw [hstate]
    exact getD_set_ne _ _ _ _ _ hj
  · rw [hstate]
    simp
  · rw [hstate]
    exact getD_set_self _ _ _ _ hi

/-- Witness for C4 after the epoch expiry: at time 200 (the epoch expired at 148) the
datagram of `exSender` is handled as the theorem says, with `exFlow` the flow found. -/
theorem ext_match_reuses_flow_witness :
    exStateLate.expire < exStateLate.now ∧
    (extEvent exCfg exStateLate 0 exRecv).fdconn.length = exStateLate.fdconn.length ∧
    ∃ pre post,
      exStateLate.fdconn.getD 0 [] = pre ++ exFlow :: post ∧
      (∀ c ∈ pre, c.matches exRecv.sender exRecv.msg_controllen exRecv.ctlbuf = false) ∧
      (extEvent exCfg exStateLate 0 exRecv).fdconn.getD 0 [] =
        pre ++ { exFlow with expire := exStateLate.now + exCfg.conf_udp_timeout } :: post ∧
      extEvent exCfg exStateLate 0 exRecv =
        { exStateLate with
          fdconn := exStateLate.fdconn.set 0
            (pre ++ { exFlow with expire := exStateLate.now + exCfg.conf_udp_timeout } :: post)
          trace := exStateLate.trace ++ [Action.send exFlow.fd (payload exRecv.buf exRecv.n)
              exRecv.n,
            Action.store_expire exFlow.ptr (exStateLate.now + exCfg.conf_udp_timeout)] } :=
  ⟨by decide,
    (ext_match_reuses_flow exCfg exStateLate 0 exRecv exFlow (by decide) (by decide)).2.2⟩

/-- Counterexample to C4 as stated: an empty datagram (`recvmsg` returns 0) whose
sender and ancillary bytes match `exFlow` is not forwarded and the expiry of `exFlow`
stays 104, not `now + udp_timeout = 108`. -/
theorem ext_match_empty_datagram_ignored :
    findconn exRecvEmpty.sender exRecvEmpty.msg_controllen exRecvEmpty.ctlbuf
      (exState.fdconn.getD 0 []) = some exFlow ∧
    (extEvent exCfg exState 0 exRecvEmpty).trace = exState.trace ∧
    (extEvent exCfg exState 0 exRecvEmpty).fdconn = [[exFlow]] ∧
    exFlow.expire ≠ exState.now + exCfg.conf_udp_timeout := by
  decide

/-- C5 (amended): for every external datagram on port index `i` for which the search
finds no flow: if its payload is non-empty (`n > 0`), `now <= expire`, `malloc`
succeeds and the registration does not fail, exactly one record with port index `i`,
the datagram's sender and its ancillary bytes is put in front of port `i`'s list, the
payload is sent on its socket and its expiry is `now + udp_timeout`, all other lists
being unchanged; if `now > expire` the state, trace included, is unchanged. -/
theorem ext_nomatch_admission (cfg : UdpConf) (s : UdpState) (i : Nat) (r : ExtRecv)
    (hi : i < s.fdconn.length)
    (hnone : findconn r.sender r.msg_controllen r.ctlbuf (s.fdconn.getD i []) = none) :
    (∀ p, 0 < r.n → s.now ≤ s.expire → r.malloc = some p → 0 ≤ r.epoll_retval →
      (extEvent cfg s i r).fdconn.getD i [] =
        { ptr := p, fd := r.msocket, i := i, expire := s.now + cfg.conf_udp_timeout,
          sender := r.sender, ctllen := r.msg_controllen,
          ctlbuf := r.ctlbuf.take r.msg_controllen } :: s.fdconn.getD i [] ∧
      (∀ j, j ≠ i → (extEvent cfg s i r).fdconn.getD j [] = s.fdconn.getD j []) ∧
      (extEvent cfg s i r).fdconn.length = s.fdconn.length ∧
      (extEvent cfg s i r).trace = s.trace ++
        [Action.ioth_connect r.msocket ((cfg.item.getD i ⟨0, ⟨0, 0, [], 0⟩⟩).intsockaddr),
          Action.epoll_ctl EPOLL_CTL_ADD r.msocket,
          Action.send r.msocket (payload r.buf r.n) r.n,
          Action.store_expire p (s.now + cfg.conf_udp_timeout)]) ∧
    (s.expire < s.now → extEvent cfg s i r = s) := by
  constructor
  · intro p hn hnow hmalloc hreg
    have hstate : extEvent cfg s i r =
        { s with
          fdconn := s.fdconn.set i
            ({ ptr := p, fd := r.msocket, i := i, expire := s.now + cfg.conf_udp_timeout,
               sender := r.sender, ctllen := r.msg_controllen,
               ctlbuf := r.ctlbuf.take r.msg_controllen } :: s.fdconn.getD i [])
          trace := s.trace ++
            [Action.ioth_connect r.msocket
                ((cfg.item.getD i ⟨0, ⟨0, 0, [], 0⟩⟩).intsockaddr),
              Action.epoll_ctl EPOLL_CTL_ADD r.msocket] ++
            [Action.send r.msocket (payload r.buf r.n) r.n,
              Action.store_expire p (s.now + cfg.conf_udp_timeout)] } := by
      unfold extEvent
      rw [if_pos hn, hnone]
      simp only
      rw [if_pos hnow, hmalloc]
      simp only
      rw [if_neg (by omega)]
    refine ⟨?_, ?_, ?_, ?_⟩
    · rw [hstate]
      exact getD_set_self _ _ _ _ hi
    · intro j hj
      rw [hstate]
      exact getD_set_ne _ _ _ _ _ hj
    · rw [hstate]
      simp
    · rw [hstate]
      simp
  · intro hexp
    unfold extEvent
    split
    · rw [hnone]
      simp only
      rw [if_neg (by omega)]
    · rfl

/-- Witness for C5: at time 100 the datagram of a new peer port creates a flow in
front of `exFlow`; at time 200, after the expiry 148, the same datagram changes
nothing. -/
theorem ext_nomatch_admission_witness :
    (extEvent exCfg exState 0 exRecvOther).fdconn.getD 0 [] =
      [{ ptr := 8192, fd := 9, i := 0, expire := 108,
         sender := { exSender with sin6_port := 5001 }, ctllen := 4,
         ctlbuf := [1, 2, 3, 4] }, exFlow] ∧
    extEvent exCfg { exState with now := 200 } 0 exRecvOther = { exState with now := 200 } :=
  ⟨((ext_nomatch_admission exCfg exState 0 exRecvOther (by decide) (by decide)).1 8192
      (by decide) (by decide) (by decide) (by decide)).1,
    (ext_nomatch_admission exCfg { exState with now := 200 } 0 exRecvOther (by decide)
      (by decide)).2 (by decide)⟩

/-- Counterexample to C5 as stated: before the epoch expiry, with allocation and
registration succeeding, an empty datagram (`recvmsg` returns 0) of a peer that
matches no flow creates no flow and nothing is sent. -/
theorem ext_nomatch_empty_datagram_ignored :
    findconn exRecvOtherEmpty.sender exRecvOtherEmpty.msg_controllen exRecvOtherEmpty.ctlbuf
      (exState.fdconn.getD 0 []) = none ∧
    exState.now ≤ exState.expire ∧
    exRecvOtherEmpty.malloc = some 8192 ∧ 0 ≤ exRecvOtherEmpty.epoll_retval ∧
    extEvent exCfg exState 0 exRecvOtherEmpty = exState := by
  decide

/-! ### Where the records of a list come from -/

theorem mem_getD_set {α : Type} (l : List (List α)) (i j : Nat) (x : List α) (c : α)
    (h : c ∈ (l.set i x).getD j []) : (j = i ∧ c ∈ x) ∨ c ∈ l.getD j [] := by
  by_cases hj : j = i
  · subst hj
    by_cases hlt : j < l.length
    · left
      rw [getD_set_self _ _ _ _ hlt] at h
      exact ⟨rfl, h⟩
    · right
      rw [List.set_eq_of_length_le (Nat.le_of_not_lt hlt)] at h
      exact h
  · right
    rwa [getD_set_ne _ _ _ _ _ hj] at h

theorem getD_map_map {α : Type} (l : List (List α)) (g : α → α) (j : Nat) :
    (l.map (List.map g)).getD j [] = (l.getD j []).map g := by
  simp only [List.getD_eq_getElem?_getD, List.getElem?_map]
  cases l[j]? <;> simp

theorem extEvent_mem (cfg : UdpConf) (s : UdpState) (i : Nat) (r : ExtRecv) (j : Nat)
    (c' : udpconn) (h : c' ∈ (extEvent cfg s i r).fdconn.getD j []) :
    c' ∈ s.fdconn.getD j [] ∨
    (∃ c ∈ s.fdconn.getD j [], c' = { c with expire := s.now + cfg.conf_udp_timeout }) ∨
    (j = i ∧ ∃ p, r.malloc = some p ∧
      c' = { ptr := p, fd := r.msocket, i := i, expire := s.now + cfg.conf_udp_timeout,
             sender := r.sender, ctllen := r.msg_controllen,
             ctlbuf := r.ctlbuf.take r.msg_controllen }) := by
  unfold extEvent at h
  by_cases hn : 0 < r.n
  · rw [if_pos hn] at h
    cases hfind : findconn r.sender r.msg_controllen r.ctlbuf (s.fdconn.getD i []) with
    | some conn =>
      rw [hfind] at h
      simp only at h
      obtain ⟨pre, post, hl, hm, hpre⟩ := (findconn_some_iff _ _ _ _ _).1 hfind
      rw [hl, setExpireFound_split _ _ _ _ _ _ _ hm hpre] at h
      rcases mem_getD_set _ _ _ _ _ h with ⟨hji, hmem⟩ | hmem
      · subst hji
        rw [hl]
        rcases List.mem_append.1 hmem with hp | hp
        · exact Or.inl (List.mem_append.2 (Or.inl hp))
        · rcases List.mem_cons.1 hp with hc | hp
          · exact Or.inr (Or.inl ⟨conn, by simp, hc⟩)
          · exact Or.inl (List.mem_append.2 (Or.inr (List.mem_cons_of_mem _ hp)))
      · exact Or.inl hmem
    | none =>
      rw [hfind] at h
      simp only at h
      by_cases hnow : s.now ≤ s.expire
      · rw [if_pos hnow] at h
        cases hmalloc : r.malloc with
        | none =>
          rw [hmalloc] at h
          exact Or.inl h
        | some p =>
          rw [hmalloc] at h
          simp only at h
          by_cases hreg : r.epoll_retval < 0
          · rw [if_pos hreg] at h
            exact Or.inl h
          · rw [if_neg hreg] at h
            rcases mem_getD_set _ _ _ _ _ h with ⟨hji, hmem⟩ | hmem
            · rcases List.mem_cons.1 hmem with hc | hp
              · exact Or.inr (Or.inr ⟨hji, p, rfl, hc⟩)
              · subst hji
                exact Or.inl hp
            · exact Or.inl hmem
      · rw [if_neg hnow] at h
        exact Or.inl h
  · rw [if_neg hn] at h
    exact Or.inl h

theorem intEvent_mem (cfg : UdpConf) (s : UdpState) (p : Nat) (r : IntRecv) (j : Nat)
    (c' : udpconn) (h : c' ∈ (intEvent cfg s p r).fdconn.getD j []) :
    c' ∈ s.fdconn.getD j [] ∨
    (∃ c ∈ s.fdconn.getD j [], c' = { c with expire := s.now + cfg.conf_udp_timeout }) := by
  unfold intEvent at h
  cases hl : lookupPtr s.fdconn p with
  | none =>
    rw [hl] at h
    exact Or.inl h
  | some conn =>
    rw [hl] at h
    simp only [setExpirePtr] at h
    rw [getD_map_map] at h
    obtain ⟨c, hc, rfl⟩ := List.mem_map.1 h
    by_cases hp : c.ptr = p
    · rw [if_pos hp]
      exact Or.inr ⟨c, hc, rfl⟩
    · rw [if_neg hp]
      exact Or.inl hc

theorem handleEvent_mem (cfg : UdpConf) (s : UdpState) (ev : Event) (j : Nat)
    (c' : udpconn) (h : c' ∈ (handleEvent cfg s ev).fdconn.getD j []) :
    c' ∈ s.fdconn.getD j [] ∨
    (∃ c ∈ s.fdconn.getD j [], c' = { c with expire := s.now + cfg.conf_udp_timeout }) ∨
    (∃ r p, ev = Event.ext j r ∧ r.malloc = some p ∧
      c' = { ptr := p, fd := r.msocket, i := j, expire := s.now + cfg.conf_udp_timeout,
             sender := r.sender, ctllen := r.msg_controllen,
             ctlbuf := r.ctlbuf.take r.msg_controllen }) := by
  cases ev with
  | ext i r =>
    rcases extEvent_mem cfg s i r j c' h with h1 | h2 | ⟨hji, p, hp, hc⟩
    · exact Or.inl h1
    · exact Or.inr (Or.inl h2)
    · subst hji
      exact Or.inr (Or.inr ⟨r, p, rfl, hp, hc⟩)
  | int p r =>
    rcases intEvent_mem cfg s p r j c' h with h1 | h2
    · exact Or.inl h1
    · exact Or.inr (Or.inl h2)

/-! ### The sweep -/

theorem sweepList_fst (now : Int) (l : List udpconn) :
    (sweepList now l).1 = l.filter (fun c => decide (now ≤ c.expire)) := by
  induction l with
  | nil => rfl
  | cons c cs ih =>
    unfold sweepList
    by_cases h : now > c.expire
    · rw [if_pos h]
      simp only
      rw [ih, List.filter_cons_of_neg (by simp; omega)]
    · rw [if_neg h]
      simp only
      rw [ih, List.filter_cons_of_pos (by simp; omega)]

theorem sweepPort_fdconn (s : UdpState) (i : Nat) :
    (sweepPort s i).fdconn =
      s.fdconn.set i ((s.fdconn.getD i []).filter (fun c => decide (s.now ≤ c.expire))) := by
  unfold sweepPort
  simp only
  split <;> simp [sweepList_fst]

theorem sweepPort_fields (s : UdpState) (i : Nat) :
    (sweepPort s i).now = s.now ∧ (sweepPort s i).last = s.last ∧
    (sweepPort s i).expire = s.expire ∧ (sweepPort s i).fd = s.fd := by
  unfold sweepPort
  simp only
  split <;> simp

theorem sweepFold_fields (s : UdpState) (n : Nat) :
    ((List.range n).foldl sweepPort s).now = s.now ∧
    ((List.range n).foldl sweepPort s).last = s.last ∧
    ((List.range n).foldl sweepPort s).expire = s.expire ∧
    ((List.range n).foldl sweepPort s).fd = s.fd ∧
    ((List.range n).foldl sweepPort s).fdconn.length = s.fdconn.length := by
  induction n with
  | zero => simp
  | succ n ih =>
    rw [List.range_succ, List.foldl_append]
    simp only [List.foldl_cons, List.foldl_nil]
    obtain ⟨h1, h2, h3, h4⟩ := sweepPort_fields ((List.range n).foldl sweepPort s) n
    refine ⟨h1.trans ih.1, h2.trans ih.2.1, h3.trans ih.2.2.1, h4.trans ih.2.2.2.1, ?_⟩
    rw [sweepPort_fdconn, List.length_set]
    exact ih.2.2.2.2

theorem getD_nil_of_le {α : Type} (l : List (List α)) (j : Nat) (h : l.length ≤ j) :
    l.getD j [] = [] := by
  simp [List.getD_eq_getElem?_getD, List.getElem?_eq_none h]

theorem sweepFold_getD (s : UdpState) (n j : Nat) :
    ((List.range n).foldl sweepPort s).fdconn.getD j [] =
      if j < n then (s.fdconn.getD j []).filter (fun c => decide (s.now ≤ c.expire))
      else s.fdconn.getD j [] := by
  induction n with
  | zero => simp
  | succ n ih =>
    rw [List.range_succ, List.foldl_append]
    simp only [List.foldl_cons, List.foldl_nil]
    rw [sweepPort_fdconn, (sweepFold_fields s n).1]
    by_cases hj : j = n
    · subst hj
      have ihn : ((List.range j).foldl sweepPort s).fdconn.getD j [] = s.fdconn.getD j [] := by
        rw [ih, if_neg (by omega)]
      rw [if_pos (by omega), ihn]
      by_cases hlt : j < ((List.range j).foldl sweepPort s).fdconn.length
      · rw [getD_set_self _ _ _ _ hlt]
      · rw [List.set_eq_of_length_le (Nat.le_of_not_lt hlt), ihn]
        rw [(sweepFold_fields s j).2.2.2.2] at hlt
        rw [getD_nil_of_le _ _ (Nat.le_of_not_lt hlt)]
        rfl
    · rw [getD_set_ne _ _ _ _ _ hj, ih]
      by_cases hlt : j < n
      · rw [if_pos hlt, if_pos (by omega)]
      · rw [if_neg hlt, if_neg (by omega)]

theorem sweep_fields (cfg : UdpConf) (s : UdpState) :
    (sweep cfg s).now = s.now ∧ (sweep cfg s).expire = s.expire ∧ (sweep cfg s).fd = s.fd ∧
    (sweep cfg s).fdconn.length = s.fdconn.length := by
  unfold sweep
  split
  · obtain ⟨h1, _, h3, h4, h5⟩ := sweepFold_fields s cfg.size
    exact ⟨h1, h3, h4, h5⟩
  · exact ⟨rfl, rfl, rfl, rfl⟩

theorem sweep_getD (cfg : UdpConf) (s : UdpState) (j : Nat) :
    (sweep cfg s).fdconn.getD j [] =
      if s.now > s.last ∧ j < cfg.size then
        (s.fdconn.getD j []).filter (fun c => decide (s.now ≤ c.expire))
      else s.fdconn.getD j [] := by
  unfold sweep
  by_cases h : s.now > s.last
  · rw [if_pos h]
    simp only
    rw [sweepFold_getD]
    by_cases hj : j < cfg.size
    · rw [if_pos hj, if_pos ⟨h, hj⟩]
    · rw [if_neg hj, if_neg (fun hh => hj hh.2)]
  · rw [if_neg h, if_neg (fun hh => h hh.1)]

theorem sweep_mem (cfg : UdpConf) (s : UdpState) (j : Nat) (c : udpconn)
    (h : c ∈ (sweep cfg s).fdconn.getD j []) : c ∈ s.fdconn.getD j [] := by
  rw [sweep_getD] at h
  split at h
  · exact (List.mem_filter.1 h).1
  · exact h

/-! ### Replies to the external peer -/

theorem lookupPtr_some (fdconn : List (List udpconn)) (p : Nat) (conn : udpconn)
    (h : lookupPtr fdconn p = some conn) : conn ∈ fdconn.flatten ∧ conn.ptr = p := by
  unfold lookupPtr at h
  have h1 := List.mem_of_find?_eq_some h
  have h2 := List.find?_some h
  exact ⟨h1, by simpa using h2⟩

theorem handleEvent_fields (cfg : UdpConf) (s : UdpState) (ev : Event) :
    (handleEvent cfg s ev).now = s.now ∧ (handleEvent cfg s ev).last = s.last ∧
    (handleEvent cfg s ev).expire = s.expire ∧ (handleEvent cfg s ev).fd = s.fd ∧
    (handleEvent cfg s ev).usagecount = s.usagecount ∧
    (handleEvent cfg s ev).fdconn.length = s.fdconn.length := by
  cases ev with
  | ext i r =>
    simp only [handleEvent, extEvent]
    split
    · split
      · simp
      · split
        · split
          · simp
          · split <;> simp
        · simp
    · simp
  | int p r =>
    simp only [handleEvent, intEvent]
    split <;> simp [setExpirePtr]

/-- C3: in every step of the relay (an event or the sweep) each record of a list after
the step is a record of the same list before the step with at most its expiry
changed, or the record created by this event from the datagram's sender and ancillary
bytes; the array of external sockets never changes; and the reply sent for an event
on the internal socket of the record `conn` is one `sendmsg` on the external socket
of index `conn.i`, to `conn.sender`, with control data `conn.ctlbuf` of length
`conn.ctllen`. -/
theorem udp_pktinfo_kept_and_replayed (cfg : UdpConf) (s : UdpState) :
    (∀ ev j c', c' ∈ (handleEvent cfg s ev).fdconn.getD j [] →
      (∃ c ∈ s.fdconn.getD j [], c' = { c with expire := c'.expire }) ∨
      (∃ r p, ev = Event.ext j r ∧ r.malloc = some p ∧
        c' = { ptr := p, fd := r.msocket, i := j, expire := s.now + cfg.conf_udp_timeout,
               sender := r.sender, ctllen := r.msg_controllen,
               ctlbuf := r.ctlbuf.take r.msg_controllen })) ∧
    (∀ j c', c' ∈ (sweep cfg s).fdconn.getD j [] → c' ∈ s.fdconn.getD j []) ∧
    (∀ ev, (handleEvent cfg s ev).fd = s.fd) ∧
    (sweep cfg s).fd = s.fd ∧
    (∀ p r conn, lookupPtr s.fdconn p = some conn →
      conn ∈ s.fdconn.flatten ∧ conn.ptr = p ∧
      (intEvent cfg s p r).trace = s.trace ++
        [Action.sendmsg (s.fd.getD conn.i (-1)) conn.sender (payload r.buf r.n) r.n
            conn.ctlbuf conn.ctllen,
          Action.store_expire p (s.now + cfg.conf_udp_timeout)]) := by
  refine ⟨?_, fun j c' h => sweep_mem cfg s j c' h,
    fun ev => (handleEvent_fields cfg s ev).2.2.2.1, (sweep_fields cfg s).2.2.1, ?_⟩
  · intro ev j c' h
    rcases handleEvent_mem cfg s ev j c' h with h1 | ⟨c, hc, rfl⟩ | h3
    · exact Or.inl ⟨c', h1, rfl⟩
    · exact Or.inl ⟨c, hc, rfl⟩
    · exact Or.inr h3
  · intro p r conn hl
    obtain ⟨h1, h2⟩ := lookupPtr_some _ _ _ hl
    refine ⟨h1, h2, ?_⟩
    unfold intEvent
    rw [hl]

/-- Witness for C3: the reply for an event on the internal socket of `exFlow` goes
out on the external socket 3 of port index 0, to `exSender`, with the four stored
ancillary bytes. -/
theorem udp_pktinfo_kept_and_replayed_witness :
    (intEvent exCfg exState 4096 ⟨3, [1, 2, 3]⟩).trace =
      [Action.sendmsg 3 exSender [1, 2, 3] 3 [1, 2, 3, 4] 4, Action.store_expire 4096 108] :=
  ((udp_pktinfo_kept_and_replayed exCfg exState).2.2.2.2 4096 ⟨3, [1, 2, 3]⟩ exFlow
    (by decide)).2.2

/-! ### No expired record survives an iteration -/

theorem handleEvent_live (cfg : UdpConf) (s : UdpState) (ev : Event) (m : Int)
    (hm : m ≤ s.now + cfg.conf_udp_timeout)
    (h : ∀ j, ∀ c ∈ s.fdconn.getD j [], m ≤ c.expire) :
    ∀ j, ∀ c ∈ (handleEvent cfg s ev).fdconn.getD j [], m ≤ c.expire := by
  intro j c hc
  rcases handleEvent_mem cfg s ev j c hc with h1 | ⟨d, _, rfl⟩ | ⟨r, p, _, _, rfl⟩
  · exact h j c h1
  · exact hm
  · exact hm

theorem foldl_handleEvent_fields (cfg : UdpConf) (evs : List Event) (s : UdpState) :
    (evs.foldl (handleEvent cfg) s).now = s.now ∧
    (evs.foldl (handleEvent cfg) s).last = s.last ∧
    (evs.foldl (handleEvent cfg) s).fdconn.length = s.fdconn.length := by
  induction evs generalizing s with
  | nil => exact ⟨rfl, rfl, rfl⟩
  | cons ev evs ih =>
    rw [List.foldl_cons]
    obtain ⟨h1, h2, _, _, _, h6⟩ := handleEvent_fields cfg s ev
    obtain ⟨i1, i2, i3⟩ := ih (handleEvent cfg s ev)
    exact ⟨i1.trans h1, i2.trans h2, i3.trans h6⟩

theorem foldl_handleEvent_live (cfg : UdpConf) (evs : List Event) (s : UdpState) (m : Int)
    (hm : m ≤ s.now + cfg.conf_udp_timeout)
    (h : ∀ j, ∀ c ∈ s.fdconn.getD j [], m ≤ c.expire) :
    ∀ j, ∀ c ∈ (evs.foldl (handleEvent cfg) s).fdconn.getD j [], m ≤ c.expire := by
  induction evs generalizing s with
  | nil => exact h
  | cons ev evs ih =>
    rw [List.foldl_cons]
    apply ih
    · rw [(handleEvent_fields cfg s ev).1]
      exact hm
    · exact handleEvent_live cfg s ev m hm h

/-- One iteration keeps the invariant of the relay loop: `last` equals the time of the
iteration, the table has one list per port, and every record expires no earlier than
the time of the iteration. -/
theorem udpIter_inv (cfg : UdpConf) (s : UdpState) (inp : IterInput)
    (hT : 0 ≤ cfg.conf_udp_timeout) (hclock : s.now ≤ inp.now)
    (hlast : s.last = s.now) (hlen : s.fdconn.length = cfg.size)
    (hlive : ∀ j, ∀ c ∈ s.fdconn.getD j [], s.now ≤ c.expire) :
    (udpIter cfg s inp).now = inp.now ∧
    (udpIter cfg s inp).last = (udpIter cfg s inp).now ∧
    (udpIter cfg s inp).fdconn.length = cfg.size ∧
    (∀ j, ∀ c ∈ (udpIter cfg s inp).fdconn.getD j [], (udpIter cfg s inp).now ≤ c.expire) := by
  have hf := foldl_handleEvent_fields cfg (inp.events.take NEVENTS) { s with now := inp.now }
  have hl := foldl_handleEvent_live cfg (inp.events.take NEVENTS) { s with now := inp.now }
    s.now (by simp only; omega) hlive
  simp only at hf
  obtain ⟨hnow, hlst, hlen2⟩ := hf
  have hsn := (sweep_fields cfg
    ((inp.events.take NEVENTS).foldl (handleEvent cfg) { s with now := inp.now })).1
  have hsl := (sweep_fields cfg
    ((inp.events.take NEVENTS).foldl (handleEvent cfg) { s with now := inp.now })).2.2.2
  have hnow2 : (udpIter cfg s inp).now = inp.now := by
    unfold udpIter
    rw [hsn, hnow]
  have hlen3 : (udpIter cfg s inp).fdconn.length = cfg.size := by
    unfold udpIter
    rw [hsl, hlen2, hlen]
  refine ⟨hnow2, ?_, hlen3, ?_⟩
  · rw [hnow2]
    unfold udpIter sweep
    split
    · simp only
      exact hnow
    · rename_i hgt
      rw [hnow, hlst] at hgt
      rw [hlst]
      omega
  · intro j c hc
    rw [hnow2]
    unfold udpIter at hc
    rw [sweep_getD, hnow, hlst] at hc
    by_cases hgt : inp.now > s.last
    · by_cases hj : j < cfg.size
      · rw [if_pos ⟨hgt, hj⟩] at hc
        simpa using (List.mem_filter.1 hc).2
      · rw [if_neg (fun hh => hj hh.2), getD_nil_of_le _ _ (by omega)] at hc
        simp at hc
    · rw [if_neg (fun hh => hgt hh.1)] at hc
      have := hl j c hc
      omega

theorem udplisten_init_inv (cfg : UdpConf) (now0 : Int) (msocket : Nat → Int) :
    (udplisten_init cfg now0 msocket).now = now0 ∧
    (udplisten_init cfg now0 msocket).last = (udplisten_init cfg now0 msocket).now ∧
    (udplisten_init cfg now0 msocket).fdconn.length = cfg.size ∧
    (∀ j, ∀ c ∈ (udplisten_init cfg now0 msocket).fdconn.getD j [],
      (udplisten_init cfg now0 msocket).now ≤ c.expire) := by
  refine ⟨rfl, rfl, by simp [udplisten_init], ?_⟩
  intro j c hc
  simp only [udplisten_init, List.getD_eq_getElem?_getD, List.getElem?_replicate] at hc
  split at hc <;> simp at hc

theorem udpLoop_inv (cfg : UdpConf) (inputs : List IterInput) (s : UdpState)
    (hT : 0 ≤ cfg.conf_udp_timeout) (hclock : clockMonotone s.now inputs = true)
    (hlast : s.last = s.now) (hlen : s.fdconn.length = cfg.size)
    (hlive : ∀ j, ∀ c ∈ s.fdconn.getD j [], s.now ≤ c.expire) :
    ∀ j, ∀ c ∈ (udpLoop cfg s inputs).fdconn.getD j [], (udpLoop cfg s inputs).now ≤ c.expire := by
  induction inputs generalizing s with
  | nil => exact hlive
  | cons inp rest ih =>
    unfold udpLoop
    simp only [clockMonotone, Bool.and_eq_true, decide_eq_true_eq] at hclock
    split
    · obtain ⟨h1, h2, h3, h4⟩ := udpIter_inv cfg s inp hT hclock.1 hlast hlen hlive
      exact ih (udpIter cfg s inp) (by rw [h1]; exact hclock.2) h2 h3 h4
    · exact hlive

theorem clockMonotone_take (k : Nat) (inputs : List IterInput) (t : Int)
    (h : clockMonotone t inputs = true) : clockMonotone t (inputs.take k) = true := by
  induction inputs generalizing t k with
  | nil => simp [clockMonotone]
  | cons inp rest ih =>
    cases k with
    | zero => simp [clockMonotone]
    | succ k =>
      simp only [clockMonotone, Bool.and_eq_true, decide_eq_true_eq, List.take_succ_cons] at h ⊢
      exact ⟨h.1, ih k inp.now h.2⟩

/-- C8: when the clock never goes backwards and `udp_timeout >= 0`, after every number
`k` of iterations of the relay loop started by `udplisten` every record still in a
list has `expire >= now`, the time of the last iteration; hence no record whose
expiry is `t + udp_timeout` (last activity at `t`) is in a list at the end of an
iteration whose time exceeds `t + udp_timeout`. -/
theorem udp_idle_flows_reclaimed (cfg : UdpConf) (now0 : Int) (msocket : Nat → Int)
    (inputs : List IterInput) (hT : 0 ≤ cfg.conf_udp_timeout)
    (hclock : clockMonotone now0 inputs = true) (k : Nat) :
    (∀ j, ∀ c ∈ (udpLoop cfg (udplisten_init cfg now0 msocket) (inputs.take k)).fdconn.getD j [],
      (udpLoop cfg (udplisten_init cfg now0 msocket) (inputs.take k)).now ≤ c.expire) ∧
    (∀ t : Int,
      t + cfg.conf_udp_timeout <
        (udpLoop cfg (udplisten_init cfg now0 msocket) (inputs.take k)).now →
      ∀ j, ∀ c ∈ (udpLoop cfg (udplisten_init cfg now0 msocket) (inputs.take k)).fdconn.getD j [],
        c.expire ≠ t + cfg.conf_udp_timeout) := by
  obtain ⟨h1, h2, h3, h4⟩ := udplisten_init_inv cfg now0 msocket
  have hinv := udpLoop_inv cfg (inputs.take k) (udplisten_init cfg now0 msocket) hT
    (by rw [h1]; exact clockMonotone_take k inputs now0 hclock) h2 h3 h4
  refine ⟨hinv, ?_⟩
  intro t ht j c hc heq
  have := hinv j c hc
  omega

/-- Witness for C8: the flow created at time 100 (expiry 108) is in the table after
the iteration at time 101 and gone after the iteration at time 109. -/
theorem udp_idle_flows_reclaimed_witness :
    (udpLoop exCfg (udplisten_init exCfg 100 exMsocket) (exInputs.take 2)).fdconn.flatten.map
      udpconn.expire = [108] ∧
    (udpLoop exCfg (udplisten_init exCfg 100 exMsocket) (exInputs.take 3)).fdconn = [[]] ∧
    ((∀ j, ∀ c ∈ (udpLoop exCfg (udplisten_init exCfg 100 exMsocket)
        (exInputs.take 3)).fdconn.getD j [],
      (udpLoop exCfg (udplisten_init exCfg 100 exMsocket) (exInputs.take 3)).now ≤ c.expire) ∧
    (∀ t : Int,
      t + exCfg.conf_udp_timeout <
        (udpLoop exCfg (udplisten_init exCfg 100 exMsocket) (exInputs.take 3)).now →
      ∀ j, ∀ c ∈ (udpLoop exCfg (udplisten_init exCfg 100 exMsocket)
          (exInputs.take 3)).fdconn.getD j [],
        c.expire ≠ t + exCfg.conf_udp_timeout)) :=
  ⟨by decide, by decide,
    udp_idle_flows_reclaimed exCfg 100 exMsocket exInputs (by decide) (by decide) 3⟩

/-! ### The splice loop of `tcpconn` -/

theorem sentOn_append (fd : Int) (a b : List TcpAction) :
    sentOn fd (a ++ b) = sentOn fd a ++ sentOn fd b := by
  induction a with
  | nil => rfl
  | cons x xs ih =>
    cases x with
    | ioth_send fd' data len =>
      simp only [List.cons_append, sentOn, List.append_eq]
      split <;> simp [ih]
    | _ => simpa only [List.cons_append, sentOn, List.append_eq] using ih

theorem receivedFrom_append (fd : Int) (a b : List TcpAction) :
    receivedFrom fd (a ++ b) = receivedFrom fd a ++ receivedFrom fd b := by
  induction a with
  | nil => rfl
  | cons x xs ih =>
    cases x with
    | ioth_recv fd' n data =>
      simp only [List.cons_append, receivedFrom, List.append_eq]
      split <;> simp [ih]
    | _ => simpa only [List.cons_append, receivedFrom, List.append_eq] using ih

theorem spliceSide_forward (revents : Nat) (r : IntRecv) (src dst : Int) (hne : src ≠ dst) :
    sentOn dst (spliceSide revents r src dst).1 = receivedFrom src (spliceSide revents r src dst).1 ∧
    sentOn src (spliceSide revents r src dst).1 = [] ∧
    receivedFrom dst (spliceSide revents r src dst).1 = [] := by
  unfold spliceSide
  split
  · split
    · rename_i hn
      simp [sentOn, receivedFrom, hn, Ne.symm hne, hne]
    · rename_i hn
      have hn2 : 0 < r.n := by omega
      simp [sentOn, receivedFrom, hn2, Ne.symm hne, hne]
  · simp [sentOn, receivedFrom]

theorem spliceLoop_forward (tmo afd infd : Int) (iters : List TcpIter) (hne : afd ≠ infd) :
    sentOn infd (spliceLoop tmo afd infd iters).1 =
      receivedFrom afd (spliceLoop tmo afd infd iters).1 ∧
    sentOn afd (spliceLoop tmo afd infd iters).1 =
      receivedFrom infd (spliceLoop tmo afd infd iters).1 := by
  induction iters with
  | nil => simp [spliceLoop, sentOn, receivedFrom]
  | cons it rest ih =>
    obtain ⟨a1, a2, a3⟩ := spliceSide_forward it.revents0 it.recv0 afd infd hne
    obtain ⟨b1, b2, b3⟩ := spliceSide_forward it.revents1 it.recv1 infd afd (Ne.symm hne)
    unfold spliceLoop
    split
    · simp [sentOn, receivedFrom]
    · split
      · simp only [sentOn, receivedFrom]
        exact ⟨a1, by rw [a2, a3]⟩
      · split
        · simp only [sentOn, receivedFrom, sentOn_append, receivedFrom_append]
          exact ⟨by rw [a1, b2, b3], by rw [a2, a3, b1]⟩
        · simp only [sentOn, receivedFrom, sentOn_append, receivedFrom_append]
          exact ⟨by rw [a1, b2, b3, ih.1], by rw [a2, a3, b1, ih.2]⟩

/-- C7: for every run of `tcpconn` (whatever the environment answers, and also while
the loop is still running) with distinct descriptors, the chunks handed to `send` on
the internal socket are exactly the chunks received with `n > 0` from the accepted
socket, with the same lengths and bytes in the same order, and the chunks handed to
`send` on the accepted socket are exactly those received from the internal socket;
so the bytes passed on in each direction are the bytes received. -/
theorem tcp_splice_forwards_chunks (tmo afd infd connect : Int) (iters : List TcpIter)
    (hne : afd ≠ infd) :
    sentOn infd (tcpconn tmo afd infd connect iters).1 =
      receivedFrom afd (tcpconn tmo afd infd connect iters).1 ∧
    sentOn afd (tcpconn tmo afd infd connect iters).1 =
      receivedFrom infd (tcpconn tmo afd infd connect iters).1 ∧
    ((sentOn infd (tcpconn tmo afd infd connect iters).1).map Prod.snd).flatten =
      ((receivedFrom afd (tcpconn tmo afd infd connect iters).1).map Prod.snd).flatten ∧
    ((sentOn afd (tcpconn tmo afd infd connect iters).1).map Prod.snd).flatten =
      ((receivedFrom infd (tcpconn tmo afd infd connect iters).1).map Prod.snd).flatten := by
  have key : sentOn infd (tcpconn tmo afd infd connect iters).1 =
        receivedFrom afd (tcpconn tmo afd infd connect iters).1 ∧
      sentOn afd (tcpconn tmo afd infd connect iters).1 =
        receivedFrom infd (tcpconn tmo afd infd connect iters).1 := by
    obtain ⟨h1, h2⟩ := spliceLoop_forward tmo afd infd iters hne
    unfold tcpconn
    by_cases hc : 0 ≤ connect
    · by_cases hb : (spliceLoop tmo afd infd iters).2 = true
      · simp only [hc, if_true, hb, sentOn, receivedFrom, sentOn_append, receivedFrom_append,
          h1, h2]
        simp
      · simp only [hc, if_true, hb, sentOn, receivedFrom, h1, h2]
        simp
    · simp [hc, sentOn, receivedFrom]
  exact ⟨key.1, key.2, by rw [key.1], by rw [key.2]⟩

/-- Witness for C7 on the run `exIters` with accepted socket 5 and internal socket 6:
`PING\n` goes to the internal socket and `OK` to the accepted socket. -/
theorem tcp_splice_forwards_chunks_witness :
    sentOn 6 (tcpconn 120 5 6 0 exIters).1 = [(5, [80, 73, 78, 71, 10])] ∧
    sentOn 5 (tcpconn 120 5 6 0 exIters).1 = [(2, [79, 75])] ∧
    (sentOn 6 (tcpconn 120 5 6 0 exIters).1 = receivedFrom 5 (tcpconn 120 5 6 0 exIters).1 ∧
    sentOn 5 (tcpconn 120 5 6 0 exIters).1 = receivedFrom 6 (tcpconn 120 5 6 0 exIters).1 ∧
    ((sentOn 6 (tcpconn 120 5 6 0 exIters).1).map Prod.snd).flatten =
      ((receivedFrom 5 (tcpconn 120 5 6 0 exIters).1).map Prod.snd).flatten ∧
    ((sentOn 5 (tcpconn 120 5 6 0 exIters).1).map Prod.snd).flatten =
      ((receivedFrom 6 (tcpconn 120 5 6 0 exIters).1).map Prod.snd).flatten) :=
  ⟨by decide, by decide, tcp_splice_forwards_chunks 120 5 6 0 exIters (by decide)⟩

/-! ### Options -/

theorem Args_init_getD (k : Nat) : OptState.init.args.argv.getD k none = none := by
  unfold OptState.init Args.init
  simp only
  rw [List.getD_eq_getElem?_getD, List.getElem?_replicate]
  split <;> rfl

theorem setIfNull_keeps_set (a : Args) (idx : Nat) (w : String) (k : Nat) (v : String)
    (h : a.argv.getD k none = some v) : (a.setIfNull idx w).argv.getD k none = some v := by
  unfold Args.setIfNull
  split
  · rename_i hnull
    have hne : k ≠ idx := by
      intro hk
      rw [hk] at h
      rw [h] at hnull
      exact absurd hnull (by simp)
    simp only
    rw [getD_set_ne _ _ _ _ _ hne]
    exact h
  · exact h

theorem setIfNull_length (a : Args) (idx : Nat) (w : String) :
    (a.setIfNull idx w).argv.length = a.argv.length := by
  unfold Args.setIfNull
  split <;> simp

theorem setIfNull_other (a : Args) (idx : Nat) (w : String) (k : Nat) (h : k ≠ idx) :
    (a.setIfNull idx w).argv.getD k none = a.argv.getD k none := by
  unfold Args.setIfNull
  split
  · simp only
    exact getD_set_ne _ _ _ _ _ h
  · rfl

theorem setIfNull_fills (a : Args) (idx : Nat) (w : String) (hlen : idx < a.argv.length)
    (h : a.argv.getD idx none = none) : (a.setIfNull idx w).argv.getD idx none = some w := by
  unfold Args.setIfNull
  rw [if_pos h]
  exact getD_set_self _ _ _ _ hlen

/-- A line of the configuration file never changes a slot of `args` that is already
set. -/
theorem parse_rc_line_keeps_set (P : Platform) (st : OptState × Int) (line : RcLine)
    (k : Nat) (v : String) (h : st.1.args.argv.getD k none = some v) :
    (parse_rc_line P st line).1.args.argv.getD k none = some v := by
  cases line with
  | skip => exact h
  | syntaxError => exact h
  | kv optname value =>
    simp only [parse_rc_line]
    split
    · split
      · exact setIfNull_keeps_set _ _ _ _ _ h
      · split <;> exact h
    · split <;> exact h

/-- The configuration file never changes a slot of `args` that is already set. -/
theorem parse_rc_file_keeps_set (P : Platform) (lines : List RcLine) (st : OptState)
    (k : Nat) (v : String) (h : st.args.argv.getD k none = some v) :
    (parse_rc_file P st lines).1.args.argv.getD k none = some v := by
  unfold parse_rc_file
  have gen : ∀ (ls : List RcLine) (acc : OptState × Int),
      acc.1.args.argv.getD k none = some v →
      (ls.foldl (parse_rc_line P) acc).1.args.argv.getD k none = some v := by
    intro ls
    induction ls with
    | nil => intro acc hacc; exact hacc
    | cons l ls ih =>
      intro acc hacc
      rw [List.foldl_cons]
      exact ih _ (parse_rc_line_keeps_set P acc l k v hacc)
  exact gen lines (st, 0) h

/-- The option loop never changes a slot of `args` that is already set. -/
theorem cliLoop_keeps_set (P : Platform) (cli : List CliArg) (st st' : OptState)
    (k : Nat) (v : String) (hrun : cliLoop P st cli = .ok st')
    (h : st.args.argv.getD k none = some v) : st'.args.argv.getD k none = some v := by
  induction cli generalizing st with
  | nil =>
    simp only [cliLoop, Except.ok.injEq] at hrun
    rw [← hrun]
    exact h
  | cons a rest ih =>
    unfold cliLoop at hrun
    split at hrun
    · split at hrun
      · simp only [Except.ok.injEq] at hrun
        rw [← hrun]
        exact h
      · exact absurd hrun (by simp)
    · split at hrun
      · exact ih _ hrun h
      · split at hrun
        · exact absurd hrun (by simp)
        · split at hrun
          · split at hrun <;> exact ih _ hrun h
          · split at hrun
            · split at hrun <;> exact ih _ hrun h
            · exact ih _ hrun (setIfNull_keeps_set _ _ _ _ _ h)

theorem long_options_val_nonneg (P : Platform) (hP : P.char_signed = false)
    (o : struct_option) (ho : o ∈ long_options P) : 0 ≤ o.val := by
  simp only [long_options, List.mem_cons, List.mem_singleton, List.not_mem_nil, or_false] at ho
  rcases ho with h | h | h | h | h | h | h | h | h | h | h | h | h | h | h | h | h | h | h | h <;>
    (subst h; simp [charConst, hP])

theorem getopt_long_nonneg (P : Platform) (hP : P.char_signed = false) (a : CliArg) :
    0 ≤ (getopt_long P a).1 := by
  cases a with
  | long name optarg =>
    simp only [getopt_long]
    split
    · simp
    · rename_i o ho
      have := long_options_val_nonneg P hP o (List.mem_of_find?_eq_some ho)
      split
      · split <;> simp [this]
      · simpa using this
  | short c optarg =>
    simp only [getopt_long]
    split
    · simp
    · split
      · split <;> simp
      · simp

/-- Where plain `char` is unsigned, an option occurrence whose tag is in `arg_tags`
and whose slot is still unset stores its argument in the slot, and the rest of the
option loop keeps it. -/
theorem cliLoop_fills_slot (P : Platform) (hP : P.char_signed = false) (a : CliArg)
    (rest : List CliArg) (st st' : OptState)
    (hrun : cliLoop P st (a :: rest) = .ok st')
    (hidx : argindex (getopt_long P a).1 < st.args.argv.length)
    (htag : argindex (getopt_long P a).1 < arg_tags.length)
    (hnull : st.args.argv.getD (argindex (getopt_long P a).1) none = none) :
    st'.args.argv.getD (argindex (getopt_long P a).1) none =
      some ((getopt_long P a).2.getD "") := by
  have hnn := getopt_long_nonneg P hP a
  have hne : ∀ c : Int, argindex c = arg_tags.length → (getopt_long P a).1 ≠ c := by
    intro c hc heq
    rw [heq, hc] at htag
    exact absurd htag (by simp)
  unfold cliLoop at hrun
  rw [if_neg (by omega), if_neg (hne 102 (by decide)),
    if_neg (by
      rintro (h | h | h)
      · omega
      · exact hne 63 (by decide) h
      · exact hne 104 (by decide) h),
    if_neg (hne 117 (by decide)), if_neg (hne 116 (by decide))] at hrun
  exact cliLoop_keeps_set P rest _ st' _ _ hrun (setIfNull_fills _ _ _ hidx hnull)

/-- Where plain `char` is unsigned, the first occurrence on the command line of an
option whose tag is in `arg_tags` decides the final value of its slot, whatever the
configuration file holds: when option handling does not exit, the slot holds the
argument of that occurrence. -/
theorem cli_value_wins_unsigned_char (P : Platform) (hP : P.char_signed = false)
    (rcfiles : String → Option (List RcLine)) (pre post : List CliArg) (a : CliArg)
    (st' : OptState)
    (hrun : main_options P (pre ++ a :: post) rcfiles = .ok st')
    (htag : argindex (getopt_long P a).1 < arg_tags.length)
    (hfirst : ∀ b ∈ pre, argindex (getopt_long P b).1 ≠ argindex (getopt_long P a).1) :
    st'.args.argv.getD (argindex (getopt_long P a).1) none =
      some ((getopt_long P a).2.getD "") := by
  have walk : ∀ (l : List CliArg) (st stc : OptState),
      (∀ b ∈ l, argindex (getopt_long P b).1 ≠ argindex (getopt_long P a).1) →
      st.args.argv.length = 15 →
      st.args.argv.getD (argindex (getopt_long P a).1) none = none →
      cliLoop P st (l ++ a :: post) = .ok stc →
      stc.args.argv.getD (argindex (getopt_long P a).1) none =
        some ((getopt_long P a).2.getD "") := by
    intro l
    induction l with
    | nil =>
      intro st stc _ hlen hnull hc
      have htag2 : argindex (getopt_long P a).1 < 15 := htag
      exact cliLoop_fills_slot P hP a post st stc hc (by rw [hlen]; exact htag2) htag hnull
    | cons b l ih =>
      intro st stc hb hlen hnull hc
      have hbne := hb b (by simp)
      have hl : ∀ c ∈ l, argindex (getopt_long P c).1 ≠ argindex (getopt_long P a).1 :=
        fun c hcm => hb c (by simp [hcm])
      rw [List.cons_append] at hc
      unfold cliLoop at hc
      split at hc
      · have := getopt_long_nonneg P hP b
        omega
      · split at hc
        · exact ih _ stc hl (by simpa using hlen) (by simpa using hnull) hc
        · split at hc
          · exact absurd hc (by simp)
          · split at hc
            · split at hc <;>
                exact ih _ stc hl (by simpa using hlen) (by simpa using hnull) hc
            · split at hc
              · split at hc <;>
                  exact ih _ stc hl (by simpa using hlen) (by simpa using hnull) hc
              · refine ih _ stc hl ?_ ?_ hc
                · simp only
                  rw [setIfNull_length]
                  exact hlen
                · simp only
                  rw [setIfNull_other _ _ _ _ (Ne.symm hbne)]
                  exact hnull
  unfold main_options at hrun
  split at hrun
  · exact absurd hrun (by simp)
  · split at hrun
    · exact absurd hrun (by simp)
    · rename_i st hcli
      have hslot := walk pre OptState.init st hfirst (by simp [OptState.init, Args.init])
        (Args_init_getD _) hcli
      split at hrun
      · exact absurd hrun (by simp)
      · split at hrun
        · simp only [Except.ok.injEq] at hrun
          rw [← hrun]
          exact hslot
        · split at hrun
          · exact absurd hrun (by simp)
          · split at hrun
            · exact absurd hrun (by simp)
            · simp only [Except.ok.injEq] at hrun
              rw [← hrun]
              exact parse_rc_file_keeps_set P _ st _ _ hslot

/-- C9 (the code at a failing input): where plain `char` is signed, the command line
`-e vnl=vde:// -b fc00::1 -f rc --udp_timeout 20` with the file line `udp_timeout 5`
leaves `args.udp_timeout` holding the file's `5`: `getopt_long` returns the negative
`val` of `udp_timeout`, the option loop is left, and the slot is filled by the file. -/
theorem cli_numeric_option_lost_to_rcfile (strtol : String → Int)
    (sscanf_proxy : String → Option (Nat × String × Nat)) :
    (getopt_long (exSigned strtol sscanf_proxy) (CliArg.long "udp_timeout" (some "20"))).1
      = -118 ∧
    (main_options (exSigned strtol sscanf_proxy) exCli exRc).toOption.map
      (fun st => st.args.udp_timeout) = some (some "5") ∧
    (main_options (exSigned strtol sscanf_proxy) exCli exRc).toOption.map
      (fun st => (main_conf (exSigned strtol sscanf_proxy) st.args).conf_udp_timeout) =
      some (wrap32 (strtol "5")) := by
  exact ⟨rfl, rfl, rfl⟩

/-- C10 (the code at a failing input): with the command line
`-e vnl=vde:// -b fc00::1 -f rc`, every start-up call succeeding and the file line
`otip_preactive v`, `main` reaches its main loop with the pre-window
`conf_otip_preactive` at its initial value 8 and the post-window
`conf_otip_postactive` at the converted `v`; with the file line `otip_postactive v` it
is the pre-window that holds the converted `v` and the post-window that keeps 8. -/
theorem preactive_postactive_swapped (P : Platform) (v : String) :
    (main_startup P exEnv exCliRc (exRcPre v)).toOption.map
      (fun r => (r.args.baseaddr, r.conf.conf_otip_preactive, r.conf.conf_otip_postactive))
      = some (some "fc00::1", 8, wrap32 (P.strtol v)) ∧
    (main_startup P exEnv exCliRc (exRcPost v)).toOption.map
      (fun r => (r.args.baseaddr, r.conf.conf_otip_preactive, r.conf.conf_otip_postactive))
      = some (some "fc00::1", wrap32 (P.strtol v), 8) := by
  obtain ⟨sg, f, g⟩ := P
  cases sg <;> exact ⟨rfl, rfl⟩

/-! ### Closing of the external sockets -/

/-- Every sweep of a port after the epoch expiry that leaves its list empty decrements
the usage count, whatever happened in earlier sweeps: the state keeps no record of a
port being closed. -/
theorem sweepPort_usagecount (s : UdpState) (i : Nat) :
    (sweepPort s i).usagecount =
      if s.now > s.expire ∧ (s.fdconn.getD i []).filter (fun c => decide (s.now ≤ c.expire)) = []
      then s.usagecount - 1 else s.usagecount := by
  unfold sweepPort
  simp only [sweepList_fst]
  split <;> rfl

/-- C11 (the code at a failing input): a relay with two ports started at time 0 whose
port index 1 holds an unexpired flow leaves its loop at time 50 with the usage count 0
although the external socket 4 of port index 1 was never closed and the flow is still
linked; the external socket 3 of port index 0 was closed twice and counted twice. -/
theorem udp_port_closed_twice :
    (udpLoop exCfg2 (udplisten_init exCfg2 0 exMsocket) exInputs2).usagecount = 0 ∧
    ((udpLoop exCfg2 (udplisten_init exCfg2 0 exMsocket) exInputs2).fdconn.getD 1 []).map
      udpconn.expire = [55] ∧
    (udpLoop exCfg2 (udplisten_init exCfg2 0 exMsocket) exInputs2).fd = [3, 4] ∧
    (udpLoop exCfg2 (udplisten_init exCfg2 0 exMsocket) exInputs2).trace.count
      (Action.ioth_close 3) = 2 ∧
    (udpLoop exCfg2 (udplisten_init exCfg2 0 exMsocket) exInputs2).trace.count
      (Action.ioth_close 4) = 0 ∧
    (udpLoop exCfg2 (udplisten_init exCfg2 0 exMsocket) (exInputs2.take 2)).usagecount = 1 := by
  decide

/-! ### Failed registration of a new flow -/

/-- C16 (the code on the failing path): when a datagram with `n > 0` matches no flow,
`now <= expire`, `malloc` returns `p` and `epoll_ctl` fails, the new socket is closed,
the record is freed and no list changes, but the handler then issues `send` on the
closed socket and stores `now + udp_timeout` into the `expire` field of the freed
record. -/
theorem ext_register_failure_uses_freed_record (cfg : UdpConf) (s : UdpState) (i : Nat)
    (r : ExtRecv) (p : Nat) (hn : 0 < r.n)
    (hnone : findconn r.sender r.msg_controllen r.ctlbuf (s.fdconn.getD i []) = none)
    (hnow : s.now ≤ s.expire) (hmalloc : r.malloc = some p) (hreg : r.epoll_retval < 0) :
    (extEvent cfg s i r).fdconn = s.fdconn ∧
    (extEvent cfg s i r).trace = s.trace ++
      [Action.ioth_connect r.msocket ((cfg.item.getD i ⟨0, ⟨0, 0, [], 0⟩⟩).intsockaddr),
        Action.epoll_ctl EPOLL_CTL_ADD r.msocket,
        Action.ioth_close r.msocket,
        Action.free p,
        Action.send r.msocket (payload r.buf r.n) r.n,
        Action.store_expire p (s.now + cfg.conf_udp_timeout)] := by
  unfold extEvent
  rw [if_pos hn, hnone]
  simp only
  rw [if_pos hnow, hmalloc]
  simp only
  rw [if_pos hreg]
  simp

/-- Witness for C16: the datagram `exRecvFail` at the state `exState`. -/
theorem ext_register_failure_uses_freed_record_witness :
    (extEvent exCfg exState 0 exRecvFail).fdconn = exState.fdconn ∧
    (extEvent exCfg exState 0 exRecvFail).trace = exState.trace ++
      [Action.ioth_connect exRecvFail.msocket
          ((exCfg.item.getD 0 ⟨0, ⟨0, 0, [], 0⟩⟩).intsockaddr),
        Action.epoll_ctl EPOLL_CTL_ADD exRecvFail.msocket,
        Action.ioth_close exRecvFail.msocket,
        Action.free 8192,
        Action.send exRecvFail.msocket (payload exRecvFail.buf exRecvFail.n) exRecvFail.n,
        Action.store_expire 8192 (exState.now + exCfg.conf_udp_timeout)] :=
  ext_register_failure_uses_freed_record exCfg exState 0 exRecvFail 8192 (by decide)
    (by decide) (by decide) (by decide) (by decide)

/-! ### What a sweep removes and closes -/

theorem sweepList_snd (now : Int) (l : List udpconn) :
    (sweepList now l).2 = removedActions now l := by
  induction l with
  | nil => rfl
  | cons c cs ih =>
    unfold sweepList removedActions
    by_cases h : now > c.expire
    · rw [if_pos h]
      simp only
      rw [ih, List.filter_cons_of_pos (by simpa using h)]
      simp [removedActions]
    · rw [if_neg h]
      simp only
      rw [ih, List.filter_cons_of_neg (by simpa using h)]
      rfl

theorem sweepPort_trace (s : UdpState) (i : Nat) :
    (sweepPort s i).trace =
      s.trace ++ (removedActions s.now (s.fdconn.getD i []) ++ portCloseActions s i) := by
  unfold sweepPort portCloseActions
  simp only [sweepList_snd, sweepList_fst]
  split <;> simp

theorem sweepFold_trace (s : UdpState) (n : Nat) :
    ((List.range n).foldl sweepPort s).trace =
      s.trace ++ (List.range n).flatMap
        (fun i => removedActions s.now (s.fdconn.getD i []) ++ portCloseActions s i) := by
  induction n with
  | zero => simp
  | succ n ih =>
    rw [List.range_succ, List.foldl_append]
    simp only [List.foldl_cons, List.foldl_nil]
    obtain ⟨hnow, _, hexp, hfd, _⟩ := sweepFold_fields s n
    have hlist : ((List.range n).foldl sweepPort s).fdconn.getD n [] = s.fdconn.getD n [] := by
      rw [sweepFold_getD, if_neg (by omega)]
    rw [sweepPort_trace, ih, hnow, hlist]
    have hport : portCloseActions ((List.range n).foldl sweepPort s) n = portCloseActions s n := by
      unfold portCloseActions
      rw [hnow, hexp, hfd, hlist]
    rw [hport]
    simp [List.flatMap_append]

/-- C14: for every sweep that runs (the block under `now > last`), the list of each
port afterwards is the list before restricted to the records with `expire >= now`, in
the same order and with the records unchanged; the calls issued are, port after port,
for each record with `now > expire` in list order one close of its socket, one
`epoll_ctl` and one `free`, followed by the calls that close the port's external
socket when that is due; and the inner loop on any list keeps exactly the records with
`expire >= now`. -/
theorem udp_sweep_removes_expired (cfg : UdpConf) (s : UdpState) (hrun : s.now > s.last) :
    (∀ j, j < cfg.size →
      (sweep cfg s).fdconn.getD j [] =
        (s.fdconn.getD j []).filter (fun c => decide (s.now ≤ c.expire))) ∧
    (∀ j, cfg.size ≤ j → (sweep cfg s).fdconn.getD j [] = s.fdconn.getD j []) ∧
    (sweep cfg s).trace =
      s.trace ++ (List.range cfg.size).flatMap
        (fun i => removedActions s.now (s.fdconn.getD i []) ++ portCloseActions s i) ∧
    (∀ l : List udpconn,
      (sweepList s.now l).1 = l.filter (fun c => decide (s.now ≤ c.expire)) ∧
      (sweepList s.now l).2 = removedActions s.now l ∧
      (∀ c ∈ l, s.now > c.expire →
        (removedActions s.now [c]) =
          [Action.ioth_close c.fd, Action.epoll_ctl c.fd EPOLL_CTL_DEL, Action.free c.ptr]) ∧
      (∀ c ∈ l, s.now ≤ c.expire → c ∈ (sweepList s.now l).1 ∧ removedActions s.now [c] = [])) := by
  refine ⟨?_, ?_, ?_, ?_⟩
  · intro j hj
    rw [sweep_getD, if_pos ⟨hrun, hj⟩]
  · intro j hj
    rw [sweep_getD, if_neg (fun hh => absurd hh.2 (by omega))]
  · unfold sweep
    rw [if_pos hrun]
    simp only
    exact sweepFold_trace s cfg.size
  · intro l
    refine ⟨sweepList_fst _ _, sweepList_snd _ _, ?_, ?_⟩
    · intro c _ hc
      simp [removedActions, hc]
    · intro c hcl hc
      refine ⟨?_, ?_⟩
      · rw [sweepList_fst]
        exact List.mem_filter.2 ⟨hcl, by simpa using hc⟩
      · have : ¬ s.now > c.expire := by omega
        simp [removedActions, this]

/-- Witness for C14: the sweep at time 105 of three flows with expiries 104, 105 and
101 keeps the second and closes the sockets 7 and 10 of the first and the third. -/
theorem udp_sweep_removes_expired_witness :
    (sweep exCfg exStateSweep).fdconn =
      [[{ exFlow with ptr := 4200, fd := 8, expire := 105 }]] ∧
    (sweep exCfg exStateSweep).trace =
      [Action.ioth_close 7, Action.epoll_ctl 7 EPOLL_CTL_DEL, Action.free 4096,
       Action.ioth_close 10, Action.epoll_ctl 10 EPOLL_CTL_DEL, Action.free 4300] ∧
    (∀ j, j < exCfg.size →
      (sweep exCfg exStateSweep).fdconn.getD j [] =
        (exStateSweep.fdconn.getD j []).filter (fun c => decide (exStateSweep.now ≤ c.expire))) :=
  ⟨by decide, by decide, (udp_sweep_removes_expired exCfg exStateSweep (by decide)).1⟩

/-! ### How `tcpconn` ends -/

theorem spliceSide_isLoopCall (revents : Nat) (r : IntRecv) (src dst : Int) :
    ∀ a ∈ (spliceSide revents r src dst).1, a.isLoopCall = true := by
  unfold spliceSide
  split
  · split <;> simp [TcpAction.isLoopCall]
  · simp

theorem spliceLoop_isLoopCall (tmo afd infd : Int) (iters : List TcpIter) :
    ∀ a ∈ (spliceLoop tmo afd infd iters).1, a.isLoopCall = true := by
  induction iters with
  | nil => simp [spliceLoop]
  | cons it rest ih =>
    have h0 := spliceSide_isLoopCall it.revents0 it.recv0 afd infd
    have h1 := spliceSide_isLoopCall it.revents1 it.recv1 infd afd
    unfold spliceLoop
    intro a ha
    split at ha
    · simp only [List.mem_singleton] at ha
      subst ha
      rfl
    · split at ha
      · rcases List.mem_cons.1 ha with rfl | ha
        · rfl
        · exact h0 a ha
      · split at ha
        · rcases List.mem_cons.1 ha with rfl | ha
          · rfl
          · rcases List.mem_append.1 ha with ha | ha
            · exact h0 a ha
            · exact h1 a ha
        · rcases List.mem_cons.1 ha with rfl | ha
          · rfl
          · rcases List.mem_append.1 ha with ha | ha
            · rcases List.mem_append.1 ha with ha | ha
              · exact h0 a ha
              · exact h1 a ha
            · exact ih a ha

theorem spliceSide_break_iff (revents : Nat) (r : IntRecv) (src dst : Int) :
    (spliceSide revents r src dst).2 = true ↔ (Nat.land revents POLLIN ≠ 0 ∧ r.n ≤ 0) := by
  unfold spliceSide
  split
  · rename_i h
    split
    · rename_i hn
      simp [h, hn]
    · rename_i hn
      simp [hn]
  · rename_i h
    simp [h]

theorem ends_iff (afd infd : Int) (it : TcpIter) :
    it.ends = true ↔
      (it.pout ≤ 0 ∨ (spliceSide it.revents0 it.recv0 afd infd).2 = true ∨
        (spliceSide it.revents1 it.recv1 infd afd).2 = true) := by
  rw [spliceSide_break_iff, spliceSide_break_iff]
  unfold TcpIter.ends
  simp only [Bool.or_eq_true, Bool.and_eq_true, decide_eq_true_eq]
  tauto

/-- The splice loop is left at the first iteration whose answers make it break, and
the iterations after that one are not read. -/
theorem spliceLoop_ends (tmo afd infd : Int) (pre post : List TcpIter) (it : TcpIter)
    (hpre : ∀ x ∈ pre, x.ends = false) (hit : it.ends = true) :
    spliceLoop tmo afd infd (pre ++ it :: post) = spliceLoop tmo afd infd (pre ++ [it]) ∧
    (spliceLoop tmo afd infd (pre ++ it :: post)).2 = true := by
  induction pre with
  | nil =>
    have h := (ends_iff afd infd it).1 hit
    simp only [List.nil_append]
    unfold spliceLoop
    by_cases hp : it.pout ≤ 0
    · simp [hp]
    · by_cases h0 : (spliceSide it.revents0 it.recv0 afd infd).2 = true
      · simp [hp, h0]
      · have h1 : (spliceSide it.revents1 it.recv1 infd afd).2 = true := by
          rcases h with h | h | h
          · exact absurd h hp
          · exact absurd h h0
          · exact h
        simp [hp, h0, h1]
  | cons x xs ih =>
    have hx : x.ends = false := hpre x (by simp)
    have hx2 := (ends_iff afd infd x).not.1 (by simp [hx])
    have hxp : ¬ x.pout ≤ 0 := fun h => hx2 (Or.inl h)
    have hx0 : ¬ (spliceSide x.revents0 x.recv0 afd infd).2 = true :=
      fun h => hx2 (Or.inr (Or.inl h))
    have hx1 : ¬ (spliceSide x.revents1 x.recv1 infd afd).2 = true :=
      fun h => hx2 (Or.inr (Or.inr h))
    obtain ⟨i1, i2⟩ := ih (fun y hy => hpre y (by simp [hy]))
    simp only [List.cons_append]
    constructor
    · rw [spliceLoop, spliceLoop]
      rw [if_neg hxp, if_neg hx0, if_neg hx1, if_neg hxp, if_neg hx0, if_neg hx1, i1]
    · rw [spliceLoop, if_neg hxp, if_neg hx0, if_neg hx1]
      exact i2

/-- C15: when the connect fails, `tcpconn` receives and sends nothing and goes
straight to closing; when it succeeds, the loop is left at the first iteration in
which the wait returns `<= 0` or an executed receive returns `<= 0`, without reading
what comes after; and whenever `tcpconn` returns, its calls are the connect, then
waits, receives and sends only, then exactly one close of the internal socket, one
close of the accepted socket, one release of the usage counter and one `free`. -/
theorem tcpconn_closes_and_releases (tmo afd infd connect : Int) (iters : List TcpIter) :
    (connect < 0 →
      tcpconn tmo afd infd connect iters =
        ([TcpAction.ioth_connect infd, TcpAction.ioth_close infd, TcpAction.ioth_close afd,
          TcpAction.extstack_usagedown, TcpAction.free], true)) ∧
    (∀ pre it post, iters = pre ++ it :: post → (∀ x ∈ pre, x.ends = false) →
      it.ends = true →
      (tcpconn tmo afd infd connect iters).2 = true ∧
      tcpconn tmo afd infd connect iters = tcpconn tmo afd infd connect (pre ++ [it])) ∧
    ((tcpconn tmo afd infd connect iters).2 = true →
      ∃ body, (∀ a ∈ body, a.isLoopCall = true) ∧
        (tcpconn tmo afd infd connect iters).1 =
          TcpAction.ioth_connect infd :: (body ++
            [TcpAction.ioth_close infd, TcpAction.ioth_close afd,
              TcpAction.extstack_usagedown, TcpAction.free])) := by
  refine ⟨?_, ?_, ?_⟩
  · intro hc
    unfold tcpconn
    simp [show ¬ (0 ≤ connect) by omega]
  · intro pre it post hiters hpre hit
    subst hiters
    obtain ⟨h1, h2⟩ := spliceLoop_ends tmo afd infd pre post it hpre hit
    obtain ⟨_, h4⟩ := spliceLoop_ends tmo afd infd pre [] it hpre hit
    unfold tcpconn
    by_cases hc : 0 ≤ connect
    · simp only [hc, if_true, h1, h4]
      simp
    · simp [hc]
  · intro hret
    unfold tcpconn at hret ⊢
    by_cases hc : 0 ≤ connect
    · simp only [hc, if_true] at hret ⊢
      by_cases hb : (spliceLoop tmo afd infd iters).2 = true
      · refine ⟨(spliceLoop tmo afd infd iters).1, spliceLoop_isLoopCall tmo afd infd iters, ?_⟩
        simp [hb]
      · simp [hb] at hret
    · refine ⟨[], by simp, ?_⟩
      simp [hc]

/-- Witness for C15 on the run `exIters`, which ends when the external peer closes,
and on a failed connect. -/
theorem tcpconn_closes_and_releases_witness :
    tcpconn 120 5 6 (-1) exIters =
      ([TcpAction.ioth_connect 6, TcpAction.ioth_close 6, TcpAction.ioth_close 5,
        TcpAction.extstack_usagedown, TcpAction.free], true) ∧
    ((tcpconn 120 5 6 0 exIters).2 = true ∧
      tcpconn 120 5 6 0 exIters = tcpconn 120 5 6 0 (exIters.take 2 ++ [exIters.getD 2 ⟨0, 0, ⟨0, []⟩, 0, ⟨0, []⟩⟩])) :=
  ⟨(tcpconn_closes_and_releases 120 5 6 (-1) exIters).1 (by decide),
    (tcpconn_closes_and_releases 120 5 6 0 exIters).2.1 (exIters.take 2)
      (exIters.getD 2 ⟨0, 0, ⟨0, []⟩, 0, ⟨0, []⟩⟩) [] (by decide) (by decide) (by decide)⟩

/-! ### Spawn failures -/

/-- C13 (the code on the failing path): when `pthread_create` reports an error, that
is returns a positive error number, `tcplisten` keeps the reference it acquired for
the accepted connection: the count is the incremented count, it differs from its value
before the accept, and it is one above that value for every count below `INT_MAX`;
`tcplisten` issues neither a release nor a close of the accepted socket; `proxytcp`
and `proxyudp` keep their reference as well. -/
theorem spawn_failure_not_released (st : ListenState) (lfd : Int) (a : AcceptInput)
    (u : UsageState) (ret : Int)
    (hin : Nat.land a.revents POLLIN ≠ 0) (hm : a.malloc = true)
    (herr : 0 < a.pthread_create) (hret : 0 < ret) :
    (acceptStep st lfd a).usage = extstack_usageup st.usage ∧
    (acceptStep st lfd a).usage.count = wrap32 (st.usage.count + 1) ∧
    (acceptStep st lfd a).usage.count ≠ st.usage.count ∧
    (-2147483648 ≤ st.usage.count → st.usage.count < INT_MAX →
      (acceptStep st lfd a).usage.count = st.usage.count + 1) ∧
    (acceptStep st lfd a).trace = st.trace ++
      [ListenAction.ioth_accept lfd a.afd, ListenAction.extstack_usageup,
        ListenAction.pthread_create a.afd a.pthread_create] ∧
    proxytcp u ret = extstack_usageup u ∧
    proxyudp u ret = extstack_usageup u := by
  have h1 : ¬ a.pthread_create < 0 := by omega
  have h2 : ¬ ret < 0 := by omega
  have hstep : acceptStep st lfd a =
      { usage := extstack_usageup st.usage
        trace := st.trace ++ [ListenAction.ioth_accept lfd a.afd,
          ListenAction.extstack_usageup,
          ListenAction.pthread_create a.afd a.pthread_create] } := by
    unfold acceptStep
    rw [if_pos hin, if_pos hm, if_neg h1]
  refine ⟨?_, ?_, ?_, ?_, ?_, ?_, ?_⟩
  · rw [hstep]
  · rw [hstep]
    rfl
  · rw [hstep]
    exact wrap32_succ_ne _
  · intro hlo hhi
    unfold INT_MAX at hhi
    rw [hstep]
    exact wrap32_of_range _ (by omega) (by omega)
  · rw [hstep]
  · unfold proxytcp
    rw [if_neg h2]
  · unfold proxyudp
    rw [if_neg h2]

/-- Witness for C13: `pthread_create` returns `EAGAIN` (11) for the connection
accepted as socket 5 while the count is 2. -/
theorem spawn_failure_not_released_witness :
    (acceptStep ⟨⟨2, 0, 0⟩, []⟩ 3 exAcceptFail).usage = extstack_usageup ⟨2, 0, 0⟩ ∧
    (acceptStep ⟨⟨2, 0, 0⟩, []⟩ 3 exAcceptFail).usage.count = 2 + 1 ∧
    (acceptStep ⟨⟨2, 0, 0⟩, []⟩ 3 exAcceptFail).trace = [] ++
      [ListenAction.ioth_accept 3 exAcceptFail.afd, ListenAction.extstack_usageup,
        ListenAction.pthread_create exAcceptFail.afd exAcceptFail.pthread_create] ∧
    proxytcp ⟨1, 0, 0⟩ 11 = extstack_usageup ⟨1, 0, 0⟩ ∧
    proxyudp ⟨1, 0, 0⟩ 11 = extstack_usageup ⟨1, 0, 0⟩ :=
  have h := spawn_failure_not_released ⟨⟨2, 0, 0⟩, []⟩ 3 exAcceptFail ⟨1, 0, 0⟩ 11
    (by decide) (by decide) (by decide) (by decide)
  ⟨h.1, h.2.2.2.1 (by decide) (by decide), h.2.2.2.2.1, h.2.2.2.2.2.1, h.2.2.2.2.2.2⟩

/-! ### The timeout of the listener -/

/-- The recomputed timeout is negative once the body ends later than one second after
the expiry, and non-negative up to then (for differences that fit an `int` of
milliseconds). -/
theorem listen_timeout_sign (expire now : Int) :
    (expire + 1 < now → now - expire ≤ 2147484 → wrap32 ((expire - now + 1) * 1000) < 0) ∧
    (now ≤ expire + 1 → expire - now < 2147483 → 0 ≤ wrap32 ((expire - now + 1) * 1000)) := by
  have key : ∀ x : Int, -2147483648 ≤ x → x < 2147483648 → wrap32 x = x := by
    intro x h1 h2
    unfold wrap32
    rw [Int.emod_eq_of_lt (by omega) (by omega)]
    omega
  constructor
  · intro h1 h2
    rw [key _ (by omega) (by omega)]
    omega
  · intro h1 h2
    rw [key _ (by omega) (by omega)]
    omega

/-- C17 (the code at failing inputs): a listener started at time 100 with lifetime 48
whose loop body ends at time 150, two seconds after the expiry 148, passes the timeout
-1000 to its next wait, which returns only with the next connection, here at time
5000, and the loop goes on; and with lifetime 2147483 the initial timeout is
negative. -/
theorem listen_timeout_negative :
    pollTimeouts (tcplisten 48 5 exCfg.item exMsocket 100 ⟨2, 0, 0⟩ exListenIters).1.trace
      = [49000, -1000] ∧
    (tcplisten 48 5 exCfg.item exMsocket 100 ⟨2, 0, 0⟩ exListenIters).2 = false ∧
    pollTimeouts (tcplisten 2147483 5 exCfg.item exMsocket 100 ⟨2, 0, 0⟩
      [⟨1, [⟨1, 5, true, 0⟩], 101⟩]).1.trace = [-2147483296] := by
  decide

/-! ### The rotator -/

theorem rotatorTick_same (s : RotState) (inp : TickInput)
    (h : inp.otiptime = s.last_otiptime) :
    rotatorTick s inp = { s with trace := s.trace ++ [RotAction.sleep] } := by
  unfold rotatorTick
  rw [if_neg (by simp [h])]

theorem rotatorTick_new (s : RotState) (inp : TickInput)
    (h : inp.otiptime ≠ s.last_otiptime) :
    ∃ rest, (rotatorTick s inp).trace = s.trace ++ RotAction.ioth_newstack :: rest := by
  unfold rotatorTick
  rw [if_pos h]
  split
  · split
    · exact ⟨_, rfl⟩
    · exact ⟨_, rfl⟩
  · exact ⟨_, rfl⟩

/-- C12 (amended): when stack creation or counter allocation fails on the tick that
first sees epoch `e`, that tick launches no relay and ends in `sleep` (the loop goes
on), and a later tick that still sees `e` only sleeps, while the next tick that sees
another epoch calls `ioth_newstack` again. -/
theorem rotator_retries_at_next_epoch (s : RotState) (inp : TickInput)
    (hnew : inp.otiptime ≠ s.last_otiptime)
    (hfail : inp.newstack = false ∨ inp.calloc = false) :
    ((rotatorTick s inp).trace = s.trace ++ [RotAction.ioth_newstack, RotAction.sleep] ∨
      (rotatorTick s inp).trace =
        s.trace ++ [RotAction.ioth_newstack, RotAction.calloc, RotAction.sleep]) ∧
    (rotatorTick s inp).last_otiptime = inp.otiptime ∧
    (∀ inp2 : TickInput, inp2.otiptime = inp.otiptime →
      rotatorTick (rotatorTick s inp) inp2 =
        { rotatorTick s inp with trace := (rotatorTick s inp).trace ++ [RotAction.sleep] }) ∧
    (∀ inp2 : TickInput, inp2.otiptime ≠ inp.otiptime →
      ∃ rest, (rotatorTick (rotatorTick s inp) inp2).trace =
        (rotatorTick s inp).trace ++ RotAction.ioth_newstack :: rest) := by
  have hlast : (rotatorTick s inp).last_otiptime = inp.otiptime := by
    unfold rotatorTick
    rw [if_pos hnew]
    split
    · split <;> rfl
    · rfl
  refine ⟨?_, hlast, ?_, ?_⟩
  · unfold rotatorTick
    rw [if_pos hnew]
    rcases hfail with h | h
    · left
      rw [if_neg (by simp [h])]
    · by_cases hs : inp.newstack = true
      · right
        rw [if_pos hs, if_neg (by simp [h])]
      · left
        rw [if_neg hs]
  · intro inp2 h2
    exact rotatorTick_same _ _ (by rw [hlast]; exact h2)
  · intro inp2 h2
    exact rotatorTick_new _ _ (by rw [hlast]; exact h2)

/-- Witness for C12: stack creation fails at the first tick of epoch 5. -/
theorem rotator_retries_at_next_epoch_witness :
    (rotatorTick RotState.init ⟨5, false, true, 2⟩).last_otiptime = 5 ∧
    (∃ rest, (rotatorTick (rotatorTick RotState.init ⟨5, false, true, 2⟩)
        ⟨6, true, true, 2⟩).trace =
      (rotatorTick RotState.init ⟨5, false, true, 2⟩).trace ++ RotAction.ioth_newstack :: rest) :=
  ⟨(rotator_retries_at_next_epoch RotState.init ⟨5, false, true, 2⟩ (by decide)
      (Or.inl rfl)).2.1,
    (rotator_retries_at_next_epoch RotState.init ⟨5, false, true, 2⟩ (by decide)
      (Or.inl rfl)).2.2.2 ⟨6, true, true, 2⟩ (by decide)⟩

/-- Counterexample to C12 as stated: stack creation fails at the first tick of epoch
5; at the next tick, one second later and still in epoch 5, with stack creation now
able to succeed, the rotator only sleeps: `ioth_newstack` was called once in all. -/
theorem rotator_no_retry_on_next_tick :
    (rotatorLoop RotState.init exTicks).trace =
      [RotAction.ioth_newstack, RotAction.sleep, RotAction.sleep] ∧
    (rotatorLoop RotState.init exTicks).trace.count RotAction.ioth_newstack = 1 := by
  decide

end OtipRproxy
